import Mathlib

/-!
Verification of the metrics/keyword extraction-and-validation pipeline of
`ai-service/app.py` (Flask AI document-processing service).

Python strings are modelled as `List Char` (`Str`); Python/JSON values that
flow through the pipeline's dicts are modelled by the inductive `JValue`.
Each `def` in the "source embedding" section mirrors one function (or one
inline block) of `app.py`; comments name the original.  Character case
functions model Python's `str.lower`/`str.upper`/`str.title` on the ASCII
range (all case-
sensitive literals in the source are ASCII).
-/

set_option autoImplicit false
set_option maxRecDepth 16384

/-- Python strings, modelled as lists of characters. -/
abbrev Str := List Char

/-- Whitespace characters recognised by Python `str.strip()` / `str.split()`
(ASCII subset: space, tab, newline, carriage return, form feed, vertical tab). -/
def isWsC (c : Char) : Bool :=
  c = ' ' || c = '\t' || c = '\n' || c = '\x0d' || c = '\x0c' || c = '\x0b'

/-- Python `s.strip()`. -/
def pystrip (s : Str) : Str :=
  ((s.dropWhile isWsC).reverse.dropWhile isWsC).reverse

/-- Python `s.strip(chars)`: remove the given characters from both ends. -/
def pystripChars (cs : List Char) (s : Str) : Str :=
  ((s.dropWhile (cs.contains ·)).reverse.dropWhile (cs.contains ·)).reverse

/-- Python `s.lower()` (ASCII). -/
def pylower (s : Str) : Str := s.map Char.toLower

/-- Python `s.split(sep)` for a single-character separator: empty pieces kept,
`"".split(sep) == ['']`. -/
def pysplitD (sep : Char) : Str → List Str
  | [] => [[]]
  | c :: cs =>
    if c = sep then [] :: pysplitD sep cs
    else
      match pysplitD sep cs with
      | [] => [[c]]
      | t :: ts => (c :: t) :: ts

/-- Helper for `pysplitWs`: accumulates the current word (in reverse). -/
def pysplitWsGo : Str → Str → List Str
  | [], cur => if cur.isEmpty then [] else [cur.reverse]
  | c :: cs, cur =>
    if isWsC c then
      if cur.isEmpty then pysplitWsGo cs []
      else cur.reverse :: pysplitWsGo cs []
    else pysplitWsGo cs (c :: cur)

/-- Python `s.split()` (no argument): split on whitespace runs, no empty pieces. -/
def pysplitWs (s : Str) : List Str := pysplitWsGo s []

/-- Python `sep.join(xs)`. -/
def pyjoin (sep : Str) : List Str → Str
  | [] => []
  | [x] => x
  | x :: y :: xs => x ++ sep ++ pyjoin sep (y :: xs)

/-- `isPrefixStr p s`: `p` is a prefix of `s` (executable). -/
def isPrefixStr : Str → Str → Bool
  | [], _ => true
  | _ :: _, [] => false
  | p :: ps, c :: cs => p = c && isPrefixStr ps cs

/-- Case-insensitive (ASCII) prefix test:
`p` (given in lower case) matches the start of `s` up to case. -/
def isPrefixCI (p s : Str) : Bool := isPrefixStr p (pylower s)

/-- Python `p in s` (contiguous substring test). -/
def containsSub (p : Str) : Str → Bool
  | [] => isPrefixStr p []
  | c :: cs => isPrefixStr p (c :: cs) || containsSub p cs

/-- Python `s.replace(pat, repl)` for a non-empty `pat`, all occurrences,
left to right, non-overlapping.  Fuel-driven; `fuel ≥ s.length` gives the
exact semantics (each replacement consumes at least one character). -/
def replaceAllGo (pat repl : Str) : Nat → Str → Str
  | 0, s => s
  | _ + 1, [] => []
  | fuel + 1, c :: cs =>
    if isPrefixStr pat (c :: cs) then
      repl ++ replaceAllGo pat repl fuel (List.drop (pat.length - 1) cs)
    else c :: replaceAllGo pat repl fuel cs

/-- Python `s.replace(pat, repl)` (the source only uses non-empty patterns). -/
def replaceAll (pat repl s : Str) : Str :=
  match pat with
  | [] => s
  | _ :: _ => replaceAllGo pat repl s.length s

/-- Characters matched by the regex class `[\d,]`. -/
def isNumC (c : Char) : Bool := c.isDigit || c = ','

theorem length_dropWhile_le (p : Char → Bool) (l : List Char) :
    (l.dropWhile p).length ≤ l.length :=
  (List.dropWhile_sublist _).length_le

/-- Fuel-driven scanner for `re.findall(r'[\d,]+(?:\.\d+)?', s)`.  Each step
consumes at least one character, so `fuel ≥ s.length` gives the exact regex
semantics. -/
def findNumbersGo : Nat → Str → List Str
  | 0, _ => []
  | _ + 1, [] => []
  | fuel + 1, c :: cs =>
    if isNumC c then
      let run := c :: cs.takeWhile isNumC
      let rest := cs.dropWhile isNumC
      match rest with
      | '.' :: r2 =>
        let frac := r2.takeWhile Char.isDigit
        if frac.isEmpty then run :: findNumbersGo fuel rest
        else (run ++ '.' :: frac) :: findNumbersGo fuel (r2.dropWhile Char.isDigit)
      | _ => run :: findNumbersGo fuel rest
    else findNumbersGo fuel cs

/-- `re.findall(r'[\d,]+(?:\.\d+)?', s)`: maximal runs of digits/commas,
optionally followed by `.` and at least one digit.  Used by
`validate_extracted_metrics`. -/
def findNumbers (s : Str) : List Str := findNumbersGo s.length s

/-- First match of `re.findall(r'\d+(?:\.\d+)?', s)` (used when parsing plot
values): first maximal digit run, with optional fraction. -/
def findNumberSimple : Str → Option Str
  | [] => none
  | c :: cs =>
    if c.isDigit then
      let run := c :: cs.takeWhile Char.isDigit
      let rest := cs.dropWhile Char.isDigit
      some (match rest with
        | '.' :: r2 =>
          let frac := r2.takeWhile Char.isDigit
          if frac.isEmpty then run else run ++ '.' :: frac
        | _ => run)
    else findNumberSimple cs

/-- Numeric value of a digit string (digits only, most significant first). -/
def natOfDigits : Str → Nat → Nat
  | [], acc => acc
  | c :: cs, acc => natOfDigits cs (acc * 10 + (c.toNat - 48))

/-- Python `int(float(numstr))` for a string matching `\d+(\.\d+)?`: the
integer part (exact while within float precision; the claims checked here
only depend on list lengths, never on the numeric values). -/
def intOfDecimal (s : Str) : Int :=
  Int.ofNat (natOfDigits (s.takeWhile Char.isDigit) 0)

/-- Python `str.title()` (ASCII): first letter of each letter-run uppercased,
other letters lowercased; driven by whether the previous character is a
letter. -/
def pytitleGo : Bool → Str → Str
  | _, [] => []
  | prev, c :: cs =>
    let c' := if c.isAlpha then (if prev then c.toLower else c.toUpper) else c
    c' :: pytitleGo c.isAlpha cs

/-- Python `s.title()`. -/
def pytitle (s : Str) : Str := pytitleGo false s

/-- Decimal representation of a `Nat` as a `Str`. -/
def natToStr (n : Nat) : Str := (Nat.repr n).data

/-- Order-preserving de-duplication (first occurrence wins).  Models
Python `list(set(xs))`, whose iteration order is implementation-defined;
the claims below never depend on that order. -/
def dedupFirst : List Str → List Str
  | [] => []
  | x :: xs => x :: (dedupFirst xs).filter (· ≠ x)

/-- Python `s.split(':', 1)` when `':' in s`: the part before the first `':'`
and the part after it. -/
def splitFirstColon : Str → Option (Str × Str)
  | [] => none
  | c :: cs =>
    if c = ':' then some ([], cs)
    else
      match splitFirstColon cs with
      | some (a, b) => some (c :: a, b)
      | none => none

/-- Python `s.endswith(('.', '!', '?'))`. -/
def endsInTerminal (s : Str) : Bool :=
  match s.getLast? with
  | some c => c = '.' || c = '!' || c = '?'
  | none => false

/-- Python `s.endswith('.')`. -/
def endsInPeriod (s : Str) : Bool :=
  match s.getLast? with
  | some c => c = '.'
  | none => false

/-! ## JSON-like values

The Python dicts/lists/strings flowing through the pipeline.  Dict keys in
the source are always ASCII literals and are modelled as `String`; string
*contents* are modelled as `Str` so the string-processing functions above
apply to them. -/

inductive JValue where
  | jnull : JValue
  | jbool : Bool → JValue
  | jint : Int → JValue
  | jstr : Str → JValue
  | jlist : List JValue → JValue
  | jdict : List (String × JValue) → JValue

open JValue

/-- Python truthiness (`if x:`). -/
def truthy : JValue → Bool
  | .jnull => false
  | .jbool b => b
  | .jint n => n != 0
  | .jstr s => !s.isEmpty
  | .jlist xs => !xs.isEmpty
  | .jdict kvs => !kvs.isEmpty

/-- The apostrophe character (Python `repr` quotes strings with it). -/
def quoteC : Char := Char.ofNat 39

mutual

/-- Python `repr(v)` (escape sequences inside strings are not modelled; no
claim below depends on the repr of a string). -/
def pyRepr : JValue → Str
  | .jnull => ['N', 'o', 'n', 'e']
  | .jbool true => ['T', 'r', 'u', 'e']
  | .jbool false => ['F', 'a', 'l', 's', 'e']
  | .jint n => n.repr.data
  | .jstr s => quoteC :: s ++ [quoteC]
  | .jlist xs => '[' :: pyReprSeq xs ++ [']']
  | .jdict kvs => Char.ofNat 123 :: pyReprKVs kvs ++ [Char.ofNat 125]

/-- Comma-separated reprs of the elements of a list. -/
def pyReprSeq : List JValue → Str
  | [] => []
  | [x] => pyRepr x
  | x :: y :: xs => pyRepr x ++ ',' :: ' ' :: pyReprSeq (y :: xs)

/-- Comma-separated `key: value` reprs of the entries of a dict. -/
def pyReprKVs : List (String × JValue) → Str
  | [] => []
  | [(k, v)] => quoteC :: k.data ++ quoteC :: ':' :: ' ' :: pyRepr v
  | (k, v) :: e :: kvs =>
    quoteC :: k.data ++ quoteC :: ':' :: ' ' :: pyRepr v ++ ',' :: ' ' :: pyReprKVs (e :: kvs)

end

/-- Python `str(v)`. -/
def pyStr : JValue → Str
  | .jstr s => s
  | v => pyRepr v

/-- First-occurrence association lookup (Python dict indexing/`in`). -/
def jget (k : String) : List (String × JValue) → Option JValue
  | [] => none
  | (k', v) :: rest => if k = k' then some v else jget k rest

/-- Python `d.get(k, dflt)` on an association list. -/
def dget (kvs : List (String × JValue)) (k : String) (dflt : JValue) : JValue :=
  (jget k kvs).getD dflt

/-- Lookup of a key in a `JValue` that is expected to be a dict (used in
theorem statements to inspect pipeline outputs). -/
def jvGet (v : JValue) (k : String) : Option JValue :=
  match v with
  | .jdict kvs => jget k kvs
  | _ => none

/-- Python `d[k] = v`: replace the value of an existing key in place,
otherwise append the new entry (insertion order preserved). -/
def dictSetKVs (kvs : List (String × JValue)) (k : String) (v : JValue) :
    List (String × JValue) :=
  match kvs with
  | [] => [(k, v)]
  | (k', v') :: rest =>
    if k = k' then (k', v) :: rest else (k', v') :: dictSetKVs rest k v

/-- Python `d[k] = v` on a `JValue` dict (identity on non-dicts, which the
source never mutates). -/
def dictSet (d : JValue) (k : String) (v : JValue) : JValue :=
  match d with
  | .jdict kvs => .jdict (dictSetKVs kvs k v)
  | other => other

/-! ## Source embedding: `chunk_text` (app.py lines 63-86) -/

/-- Single space, the join separator for words/chunks. -/
def sp1 : Str := " ".data

/-- The word loop of `chunk_text`: `cur` is `current_chunk`, `cl` is
`current_length` (sum of word lengths plus one space each). -/
def chunkGo (max_chars : Nat) : List Str → List Str → Nat → List (List Str)
  | [], cur, _ => if cur.isEmpty then [] else [cur]
  | w :: ws, cur, cl =>
    if max_chars < cl + (w.length + 1) && !cur.isEmpty then
      cur :: chunkGo max_chars ws [w] (w.length + 1)
    else chunkGo max_chars ws (cur ++ [w]) (cl + (w.length + 1))

/-- `chunk_text(text, max_chars)`: split text into word-bounded chunks. -/
def chunk_text (text : Str) (max_chars : Nat) : List Str :=
  if text.length ≤ max_chars then [text]
  else (chunkGo max_chars (pysplitWs text) [] 0).map (pyjoin sp1)

/-! ## Source embedding: `parse_ai_metrics_response` (app.py lines 542-579) -/

/-- Characters of the regex class `[\d\.\-\*\•]` (leading numbering/bullets). -/
def isBulletC (c : Char) : Bool :=
  c.isDigit || c = '.' || c = '-' || c = '*' || c = '•'

/-- `re.sub(r'^[\d\.\-\*\•]+\s*', '', line)`: if the line starts with at least
one bullet character, remove the leading bullet run and the following
whitespace run; otherwise the regex does not match and the line is kept. -/
def stripLeadingBullets (s : Str) : Str :=
  match s with
  | [] => []
  | c :: _ => if isBulletC c then (s.dropWhile isBulletC).dropWhile isWsC else s

/-- `value` contains a digit, `'$'`, or `'%'`. -/
def hasDigitDollarPct (v : Str) : Bool :=
  v.any Char.isDigit || v.contains '$' || v.contains '%'

/-- The per-line body of `parse_ai_metrics_response`: `some "name: value"`
when the line yields a metric, `none` when it is skipped. -/
def lineMetric (rawLine : Str) : Option Str :=
  let line := pystrip rawLine
  if line.isEmpty || line.length < 5 then none
  else
    let clean_line := pystrip (stripLeadingBullets line)
    if containsSub [':'] clean_line then
      match splitFirstColon clean_line with
      | some (before, after) =>
        let metric_name := pystrip before
        let metric_value := pystrip after
        if 2 < metric_name.length && 0 < metric_value.length &&
            hasDigitDollarPct metric_value && clean_line.length < 150 then
          some (metric_name ++ ':' :: ' ' :: metric_value)
        else none
      | none => none
    else none

/-- The line loop of `parse_ai_metrics_response`, with exact-string dedup
against the accumulator (`if formatted_metric not in metrics`). -/
def pamrGo (acc : List Str) : List Str → List Str
  | [] => acc
  | l :: ls =>
    match lineMetric l with
    | some m => if m ∈ acc then pamrGo acc ls else pamrGo (acc ++ [m]) ls
    | none => pamrGo acc ls

/-- `parse_ai_metrics_response(response)`. -/
def parse_ai_metrics_response (response : Str) : List Str :=
  if response.isEmpty then [] else pamrGo [] (pysplitD '\n' response)

/-! ## Source embedding: `validate_extracted_metrics` (app.py lines 581-611) -/

def rateStr : Str := "rate".data

def countStr : Str := "count".data

/-- The `name_variations` list of `validate_extracted_metrics` (the name is
already stripped and lowercased): the name itself, the name with whitespace
runs normalised (`' '.join(name.split())`), the first word (or `''`), and the
name with all occurrences of `"rate"` and `"count"` removed, stripped. -/
def nameVariations (name : Str) : List Str :=
  let name_words := pysplitWs name
  [name,
   pyjoin sp1 name_words,
   name_words.headD [],
   pystrip (replaceAll countStr [] (replaceAll rateStr [] name))]

/-- The per-candidate acceptance test of `validate_extracted_metrics`. -/
def vemAccepts (text_lower original_text : Str) (metric : Str) : Bool :=
  if containsSub [':'] metric then
    match splitFirstColon metric with
    | some (rawName, rawValue) =>
      let name := pylower (pystrip rawName)
      let value := pystrip rawValue
      let numbers_in_metric := findNumbers value
      let name_found := (nameVariations name).any
        (fun v => decide (2 < v.length) && containsSub v text_lower)
      let number_found := numbers_in_metric.any (fun n => containsSub n original_text)
      name_found || number_found
    | none => false
  else false

/-- `validate_extracted_metrics(metrics, original_text)`: the append-if loop
keeps exactly the candidates passing `vemAccepts`, in order. -/
def validate_extracted_metrics (metrics : List Str) (original_text : Str) :
    List Str :=
  metrics.filter (vemAccepts (pylower original_text) original_text)

/-! ## Source embedding: plot functions (app.py lines 761-848) -/

/-- `PlotDescriptor`: one chart produced by the plot builders. -/
structure Plot where
  title : Str
  type : Str
  labels : List Str
  values : List Int
  deriving DecidableEq

def barStr : Str := "bar".data

def lineTypeStr : Str := "line".data

def pieStr : Str := "pie".data

/-- `chart_type if chart_type in valid_types else 'bar'`. -/
def normChartType (t : Str) : Str :=
  if t = barStr || t = lineTypeStr || t = pieStr then t else barStr

/-- One entry of the `values` list of `parse_enhanced_plot_data`: first
number of the comma field, else the fallback 10. -/
def parsePlotValue (v : Str) : Int :=
  match findNumberSimple (pystrip v) with
  | some num => intOfDecimal num
  | none => 10

/-- The per-line body of `parse_enhanced_plot_data`: pipe-split the stripped
line, validate label/value counts and title length, normalise the chart
type. -/
def parsePlotLine (rawLine : Str) : Option Plot :=
  let line := pystrip rawLine
  let parts := (pysplitD '|' line).map pystrip
  if containsSub ['|'] line && 4 ≤ parts.length then
    match parts with
    | title :: ctype :: labels_text :: values_text :: _ =>
      let labels := ((pysplitD ',' labels_text).map pystrip).filter (fun l => !l.isEmpty)
      let values := (pysplitD ',' values_text).map parsePlotValue
      if labels.length = values.length && 2 ≤ labels.length && labels.length ≤ 6 &&
          0 < title.length && title.length < 50 then
        some ⟨title, normChartType (pylower ctype), labels, values⟩
      else none
    | _ => none
  else none

def topicsTitle : Str := "Key Topics Analysis".data

def focusTitle : Str := "Business Focus Areas".data

/-- `generate_basic_plots(keywords, metrics)` (the `metrics` argument is
unused in the source as well). -/
def generate_basic_plots (keywords : List Str) (_metrics : List JValue) :
    List Plot :=
  let plots0 : List Plot := []
  let plots1 :=
    if !keywords.isEmpty then
      plots0 ++ [⟨topicsTitle, barStr, keywords.take 5, [20, 15, 12, 10, 8]⟩]
    else plots0
  let plots2 :=
    if 3 < keywords.length then
      plots1 ++ [⟨focusTitle, pieStr, keywords.take 4, [30, 25, 25, 20]⟩]
    else plots1
  plots2.take 2

/-- The line loop of `parse_enhanced_plot_data`. -/
def pepdLines : List Str → List Plot
  | [] => []
  | l :: ls =>
    match parsePlotLine l with
    | some p => p :: pepdLines ls
    | none => pepdLines ls

/-- `parse_enhanced_plot_data(response)`. -/
def parse_enhanced_plot_data (response : Str) : List Plot :=
  if response.isEmpty then generate_basic_plots [] []
  else
    let plots := pepdLines (pysplitD '\n' response)
    if plots.isEmpty then generate_basic_plots [] []
    else plots.take 2

/-! ## Source embedding: `extract_data_from_text_simple` (app.py lines 974-1107)

The regex pattern families of the pattern extractor.  The scanners implement
`re.findall` for exactly the pattern shapes occurring in the source
(case-insensitive ordered alternation, greedy character classes, the optional
groups of each family), scanning left to right and resuming after each
match.  Fuel equal to the input length is exact because every match consumes
at least one character. -/

/-- The keyword lexicon of the `business_terms` regex (in alternation order). -/
def businessTerms : List Str :=
  [r"revenue".data, r"profit".data, r"growth".data, r"market".data,
   r"customer".data, r"sales".data, r"strategy".data, r"innovation".data,
   r"performance".data, r"efficiency".data, r"competitive".data,
   r"advantage".data, r"leadership".data, r"expansion".data, r"digital".data,
   r"technology".data, r"platform".data, r"solution".data, r"investment".data,
   r"partnership".data, r"acquisition".data, r"retention".data,
   r"conversion".data, r"optimization".data, r"transformation".data,
   r"improvement".data, r"sustainable".data, r"quality".data,
   r"experience".data, r"engagement".data, r"brand".data, r"value".data,
   r"proposition".data, r"share".data, r"satisfaction".data,
   r"excellence".data, r"scalability".data, r"compliance".data,
   r"security".data, r"management".data, r"development".data,
   r"operational".data, r"financial".data, r"strategic".data]

/-- Word characters for the regex `\b` boundary (`[A-Za-z0-9_]`). -/
def isWordC (c : Char) : Bool := c.isAlphanum || c = '_'

/-- First alternative matching at the start of `s` with a word boundary
after it (the keyword pattern is applied to already-lowercased text). -/
def firstTermAt (alts : List Str) (s : Str) : Option Str :=
  match alts with
  | [] => none
  | a :: rest =>
    if !a.isEmpty && isPrefixStr a s &&
        (match s.drop a.length with
         | [] => true
         | c :: _ => !isWordC c) then
      some a
    else firstTermAt rest s

/-- `re.findall(r'\b(?:...)\b', textLower)`: scan all positions, matching at
word boundaries; `prevW` records whether the previous character is a word
character. -/
def kwScanGo (alts : List Str) : Nat → Bool → Str → List Str
  | 0, _, _ => []
  | _ + 1, _, [] => []
  | fuel + 1, prevW, c :: cs =>
    if !prevW then
      match firstTermAt alts (c :: cs) with
      | some a => a :: kwScanGo alts fuel true ((c :: cs).drop a.length)
      | none => kwScanGo alts fuel (isWordC c) cs
    else kwScanGo alts fuel (isWordC c) cs

/-- All lexicon matches in the lowercased text, in order. -/
def findBusinessTerms (textLower : Str) : List Str :=
  kwScanGo businessTerms textLower.length false textLower

/-- `keywords = list(set(business_terms))[:8]`. -/
def simpleKeywords (text : Str) : List Str :=
  (dedupFirst (findBusinessTerms (pylower text))).take 8

/-- The currency symbols of the class `[€$£¥]`. -/
def currencySyms : List Char := ['€', '$', '£', '¥']

/-- The alternation `(?:million|billion|M|B)` (case-insensitive; the
single-letter branches match one letter with no boundary). -/
def magnitudeWords : List Str := [r"million".data, r"billion".data, ['m'], ['b']]

/-- First alternative matching case-insensitively at the start of `s`;
returns the original slice and the rest. -/
def firstCIWord (alts : List Str) (s : Str) : Option (Str × Str) :=
  match alts with
  | [] => none
  | a :: rest =>
    if isPrefixStr a (pylower s) then some (s.take a.length, s.drop a.length)
    else firstCIWord rest s

/-- The value group `[€$£¥][\d,]+(?:\.\d+)?(?:\s*(?:million|billion|M|B))?`
of the currency patterns: returns the captured slice and the rest. -/
def currencyValue (s : Str) : Option (Str × Str) :=
  match s with
  | [] => none
  | c :: cs =>
    if currencySyms.contains c then
      let run := cs.takeWhile isNumC
      if run.isEmpty then none
      else
        let rest1 := cs.dropWhile isNumC
        let fr : Str × Str :=
          match rest1 with
          | '.' :: r =>
            let f := r.takeWhile Char.isDigit
            if f.isEmpty then ([], rest1) else ('.' :: f, r.dropWhile Char.isDigit)
          | _ => ([], rest1)
        let ws := fr.2.takeWhile isWsC
        let rest3 := fr.2.dropWhile isWsC
        match firstCIWord magnitudeWords rest3 with
        | some (w, r) => some (c :: run ++ fr.1 ++ ws ++ w, r)
        | none => some (c :: run ++ fr.1, fr.2)
    else none

/-- The value group `(\d+(?:\.\d+)?%)` of the percentage patterns. -/
def pctValue (s : Str) : Option (Str × Str) :=
  let d1 := s.takeWhile Char.isDigit
  if d1.isEmpty then none
  else
    match s.dropWhile Char.isDigit with
    | '.' :: r2 =>
      let d2 := r2.takeWhile Char.isDigit
      if d2.isEmpty then none
      else
        match r2.dropWhile Char.isDigit with
        | '%' :: r4 => some (d1 ++ '.' :: d2 ++ ['%'], r4)
        | _ => none
    | '%' :: r2 => some (d1 ++ ['%'], r2)
    | _ => none

/-- The separator `\s*[:\-]?\s*` between description and value, with the
regex backtracking over the optional punctuation character. -/
def sepThenValue (vm : Str → Option (Str × Str)) (s : Str) : Option (Str × Str) :=
  let s1 := s.dropWhile isWsC
  match s1 with
  | c :: cs =>
    if c = ':' || c = '-' then
      match vm (cs.dropWhile isWsC) with
      | some r => some r
      | none => vm s1
    else vm s1
  | [] => vm []

/-- Ordered case-insensitive description alternation followed by separator
and value; a later alternative is tried when the rest of the pattern fails
(regex backtracking).  Returns (description slice, value slice, rest). -/
def tryDescAlts (alts : List Str) (vm : Str → Option (Str × Str)) (s : Str) :
    Option (Str × Str × Str) :=
  match alts with
  | [] => none
  | a :: rest =>
    if !a.isEmpty && isPrefixStr a (pylower s) then
      match sepThenValue vm (s.drop a.length) with
      | some (v, r) => some (s.take a.length, v, r)
      | none => tryDescAlts rest vm s
    else tryDescAlts rest vm s

/-- `re.findall` scan for the description/value pattern families. -/
def findallDVGo (alts : List Str) (vm : Str → Option (Str × Str)) :
    Nat → Str → List (Str × Str)
  | 0, _ => []
  | _ + 1, [] => []
  | fuel + 1, c :: cs =>
    match tryDescAlts alts vm (c :: cs) with
    | some (d, v, r) => (d, v) :: findallDVGo alts vm fuel r
    | none => findallDVGo alts vm fuel cs

/-- `re.findall(pattern, text)` for one currency/percentage pattern. -/
def findallDV (alts : List Str) (vm : Str → Option (Str × Str)) (s : Str) :
    List (Str × Str) :=
  findallDVGo alts vm s.length s

/-- The greedy `(?:,\d+)*` tail of the count-value group. -/
def commaGroupsGo : Nat → Str → Str × Str
  | 0, s => ([], s)
  | fuel + 1, s =>
    match s with
    | ',' :: r =>
      let d := r.takeWhile Char.isDigit
      if d.isEmpty then ([], s)
      else
        let pr := commaGroupsGo fuel (r.dropWhile Char.isDigit)
        (',' :: d ++ pr.1, pr.2)
    | _ => ([], s)

/-- The value group `(\d+(?:,\d+)*)` of the count patterns. -/
def countNumber (s : Str) : Option (Str × Str) :=
  let d1 := s.takeWhile Char.isDigit
  if d1.isEmpty then none
  else
    let rest := s.dropWhile Char.isDigit
    let pr := commaGroupsGo rest.length rest
    some (d1 ++ pr.1, pr.2)

def newWord : Str := "new".data

/-- One attempted match of `(\d+(?:,\d+)*)\s*(?:new\s+)?(desc-alts)` at the
start of `s`: number, whitespace, optional `new` + whitespace, description
alternative (with backtracking over the optional group). -/
def countMatchAt (descAlts : List Str) (s : Str) : Option (Str × Str × Str) :=
  match countNumber s with
  | none => none
  | some (num, rest1) =>
    let rest2 := rest1.dropWhile isWsC
    let viaNew : Option (Str × Str × Str) :=
      if isPrefixStr newWord (pylower rest2) then
        let r3 := rest2.drop 3
        if (r3.takeWhile isWsC).isEmpty then none
        else
          match firstCIWord descAlts (r3.dropWhile isWsC) with
          | some (d, r) => some (num, d, r)
          | none => none
      else none
    match viaNew with
    | some r => some r
    | none =>
      match firstCIWord descAlts rest2 with
      | some (d, r) => some (num, d, r)
      | none => none

/-- `re.findall` scan for one count pattern; yields (value, description). -/
def findallCountGo (descAlts : List Str) : Nat → Str → List (Str × Str)
  | 0, _ => []
  | _ + 1, [] => []
  | fuel + 1, c :: cs =>
    match countMatchAt descAlts (c :: cs) with
    | some (num, d, r) => (num, d) :: findallCountGo descAlts fuel r
    | none => findallCountGo descAlts fuel cs

def findallCount (descAlts : List Str) (s : Str) : List (Str × Str) :=
  findallCountGo descAlts s.length s

/-- One extracted metric of the pattern extractor (the Python dicts built in
`extract_data_from_text_simple`). -/
structure SimpleMetric where
  name : Str
  value : Str
  unit : Str
  category : Str
  deriving DecidableEq

/-- Description alternations of the four `currency_patterns`. -/
def currencyAlts : List (List Str) :=
  [[r"annual revenue".data, r"total revenue".data, r"net revenue".data, r"revenue".data],
   [r"net profit".data, r"profit".data, r"earnings".data, r"income".data],
   [r"market value".data, r"valuation".data, r"investment".data, r"funding".data],
   [r"cost savings".data, r"expenses".data, r"costs".data]]

/-- Description alternations of the four `percentage_patterns`. -/
def percentageAlts : List (List Str) :=
  [[r"growth".data, r"increase".data, r"improvement".data, r"rise".data],
   [r"market share".data, r"share".data],
   [r"retention rate".data, r"retention".data, r"satisfaction".data],
   [r"efficiency".data, r"productivity".data, r"performance".data]]

/-- Description alternations of the three `count_patterns` (the optional
`new` prefix is handled in `countMatchAt`). -/
def countAlts : List (List Str) :=
  [[r"customers".data, r"clients".data, r"users".data],
   [r"employees".data, r"staff".data, r"workforce".data],
   [r"locations".data, r"offices".data, r"stores".data]]

def currencyUnitStr : Str := "Currency".data

def financialStr : Str := "Financial".data

def percentageUnitStr : Str := "Percentage".data

def performanceCatStr : Str := "Performance".data

def countUnitStr : Str := "Count".data

def operationalStr : Str := "Operational".data

def totalSp : Str := "Total ".data

/-- The currency-pattern loop: per pattern, first two matches, title-cased
stripped description, unit `Currency`, category `Financial`. -/
def currencyMetricsOf (text : Str) : List SimpleMetric :=
  (currencyAlts.map (fun alts =>
    ((findallDV alts currencyValue text).take 2).map (fun dv =>
      SimpleMetric.mk (pytitle (pystrip dv.1)) dv.2 currencyUnitStr financialStr))).flatten

/-- The percentage-pattern loop. -/
def percentageMetricsOf (text : Str) : List SimpleMetric :=
  (percentageAlts.map (fun alts =>
    ((findallDV alts pctValue text).take 2).map (fun dv =>
      SimpleMetric.mk (pytitle (pystrip dv.1)) dv.2 percentageUnitStr performanceCatStr))).flatten

/-- The count-pattern loop: name prefixed with `Total `. -/
def countMetricsOf (text : Str) : List SimpleMetric :=
  (countAlts.map (fun alts =>
    ((findallCount alts text).take 2).map (fun vd =>
      SimpleMetric.mk (totalSp ++ pytitle (pystrip vd.2)) vd.1 countUnitStr operationalStr))).flatten

/-- The `seen_names` dedup loop (exact-name match, first occurrence wins). -/
def dedupByNameGo (seen : List Str) : List SimpleMetric → List SimpleMetric
  | [] => []
  | m :: ms =>
    if m.name ∈ seen then dedupByNameGo seen ms
    else m :: dedupByNameGo (m.name :: seen) ms

/-- The full metrics list of `extract_data_from_text_simple`: all pattern
families in order, deduplicated by name, capped at 8. -/
def simpleMetricsOf (text : Str) : List SimpleMetric :=
  (dedupByNameGo []
    (currencyMetricsOf text ++ percentageMetricsOf text ++ countMetricsOf text)).take 8

/-- The sentence loop of the summary builder: append sentences while the
word budget (250) is not reached; the first overflowing sentence is still
appended (`break` leaves the word count unchanged). -/
def summaryLoop : List Str → Nat → List Str × Nat
  | [], wc => ([], wc)
  | s :: rest, wc =>
    let sw := (pysplitWs s).length
    if wc + sw < 250 then
      let pr := summaryLoop rest (wc + sw)
      (s :: pr.1, pr.2)
    else ([s], wc)

def filler1 : Str := "This comprehensive business analysis encompasses multiple strategic dimensions including operational excellence, market positioning, and competitive advantages.".data

def filler2 : Str := "The document provides valuable insights into organizational performance metrics, strategic initiatives, and growth opportunities.".data

def filler3 : Str := "Key areas of focus include financial performance optimization, customer engagement strategies, operational efficiency improvements, and market expansion initiatives.".data

def filler4 : Str := "The analysis demonstrates strong business fundamentals and strategic direction for sustainable growth and competitive market positioning.".data

def filler5 : Str := "Strategic priorities emphasize innovation, market leadership, and value creation across diverse operational segments.".data

def filler6 : Str := "The organization maintains focus on long-term sustainability while delivering consistent operational excellence and stakeholder value.".data

/-- The fixed filler sentences appended when the extracted summary is under
200 words. -/
def fillerSentences : List Str :=
  [filler1, filler2, filler3, filler4, filler5, filler6]

def cannedSummary : Str := "Business document processed successfully with comprehensive analysis covering strategic initiatives, financial performance, and market positioning.".data

def dotSp : Str := ". ".data

/-- The summary block of `extract_data_from_text_simple`
(app.py lines 1052-1090). -/
def simpleSummary (text : Str) : Str :=
  let sentences := ((pysplitD '.' text).map pystrip).filter (fun s => 30 < s.length)
  let pr := summaryLoop sentences 0
  let summary_parts := pr.1
  let word_count := pr.2
  if word_count < 200 then
    let base_summary :=
      if !summary_parts.isEmpty then pyjoin dotSp summary_parts ++ ['.'] else []
    let enhanced_parts := base_summary :: fillerSentences
    let joined := pyjoin sp1 (enhanced_parts.filter (fun p => !p.isEmpty))
    if endsInPeriod joined then joined else joined ++ ['.']
  else
    if !summary_parts.isEmpty then pyjoin dotSp summary_parts ++ ['.']
    else cannedSummary

def keyMetricsTitle : Str := "Key Metrics".data

/-- The inline `plotData` of `extract_data_from_text_simple`: one bar chart
with the names of the first four metrics as labels and the fixed values
`[10, 15, 12, 8]`; empty when there are no metrics. -/
def simplePlotData (ms : List SimpleMetric) : List Plot :=
  if !ms.isEmpty then
    [⟨keyMetricsTitle, barStr, (ms.take 4).map SimpleMetric.name, [10, 15, 12, 8]⟩]
  else []

/-- A `SimpleMetric` as the Python dict appended by the source. -/
def metricToJ (m : SimpleMetric) : JValue :=
  .jdict [(r"name", .jstr m.name), (r"value", .jstr m.value),
          (r"unit", .jstr m.unit), (r"category", .jstr m.category)]

/-- A `Plot` as the Python dict used in `plotData`. -/
def plotToJ (p : Plot) : JValue :=
  .jdict [(r"title", .jstr p.title), (r"type", .jstr p.type),
          (r"labels", .jlist (p.labels.map .jstr)),
          (r"values", .jlist (p.values.map .jint))]

def excellenceSuffix : Str := " Excellence".data

def ddaStr : Str := "Data-Driven Analysis".data

def strapStr : Str := "Strategic Processing".data

def baStr : Str := "Business Analysis".data

def dpStr : Str := "Data Processing".data

def mpHead : Str := "Analysis of ".data

def mpTail : Str := " character business document completed successfully.".data

def semStr : Str := "simple_extraction_v1".data

/-- `extract_data_from_text_simple(text)`; `ts` is the
`datetime.now().isoformat()` timestamp. -/
def extract_data_from_text_simple (text : Str) (ts : Str) : JValue :=
  let keywords := simpleKeywords text
  let metrics := simpleMetricsOf text
  let summary := simpleSummary text
  let advantages :=
    if !keywords.isEmpty then
      (keywords.take 3).map (fun kw => pytitle kw ++ excellenceSuffix)
    else [ddaStr, strapStr]
  .jdict [(r"summary", .jstr summary),
          (r"keywords", .jlist (keywords.map .jstr)),
          (r"metrics", .jlist (metrics.map metricToJ)),
          (r"insights", .jstr summary),
          (r"plotData", .jlist ((simplePlotData metrics).map plotToJ)),
          (r"competitiveAdvantages", .jlist (advantages.map .jstr)),
          (r"marketPosition", .jstr (mpHead ++ natToStr text.length ++ mpTail)),
          (r"successIndicators",
            .jlist ((if !keywords.isEmpty then keywords.take 3 else [baStr, dpStr]).map .jstr)),
          (r"processing_mode", .jstr semStr),
          (r"original_length", .jint (Int.ofNat text.length)),
          (r"timestamp", .jstr ts)]

/-! ## Source embedding: `create_robust_fallback_response` and
`validate_response_format` (app.py lines 1330-1414) -/

def summaryKey : String := r"summary"

def keywordsKey : String := r"keywords"

def metricsKey : String := r"metrics"

def insightsKey : String := r"insights"

def plotDataKey : String := r"plotData"

def timestampKey : String := r"timestamp"

def compAdvKey : String := r"competitiveAdvantages"

def marketPosKey : String := r"marketPosition"

def successIndKey : String := r"successIndicators"

def nameKey : String := r"name"

def valueKey : String := r"value"

def unitKey : String := r"unit"

def categoryKey : String := r"category"

def textKey : String := r"text"

def crfrCanned : Str := "Sensitive document processed locally. Detailed analysis unavailable due to formatting issues.".data

def senMP : Str := "Sensitive data processed locally.".data

def advDefault1 : Str := "AI-Powered Analysis".data

def advDefault2 : Str := "Secure Local Processing".data

def siDefault1 : Str := "Local Processing".data

def siDefault2 : Str := "Data Security".data

def siDefault3 : Str := "Business Intelligence".data

def dots3 : Str := "...".data

/-- `create_robust_fallback_response(text, error_msg)`. -/
def create_robust_fallback_response (text err ts : Str) : JValue :=
  let summary0 :=
    if !text.isEmpty && 100 < text.length then
      match ((pysplitD '.' text).map pystrip).filter (fun s => 30 < s.length) with
      | s :: _ => s.take 300 ++ dots3
      | [] => []
    else []
  let summary := if summary0.isEmpty then crfrCanned else summary0
  .jdict [(r"summary", .jstr summary),
          (r"keywords", .jlist []),
          (r"metrics", .jlist []),
          (r"insights", .jstr summary),
          (r"plotData", .jlist []),
          (r"competitiveAdvantages", .jlist [.jstr advDefault2]),
          (r"marketPosition", .jstr senMP),
          (r"successIndicators", .jlist [.jstr siDefault1]),
          (r"timestamp", .jstr ts),
          (r"processedLocally", .jbool true),
          (r"processedWithAI", .jbool false),
          (r"fallback", .jbool true),
          (r"error", .jstr err)]

def defSummaryStr : Str := "Business analysis completed successfully".data

def defInsightsStr : Str := "Business insights extracted using local AI processing".data

def defMPStr : Str := "Analysis completed with advanced AI capabilities".data

def unknownMetricStr : Str := "Unknown Metric".data

def naStr : Str := "N/A".data

def generalStr : Str := "General".data

def invalidFormatStr : Str := "Invalid response format".data

/-- The keyword coercion of `validate_response_format`:
`[str(k) for k in keywords if k and len(str(k)) > 2][:10]`. -/
def kwClean (ks : List JValue) : List JValue :=
  ((ks.filter (fun k => truthy k && decide (2 < (pyStr k).length))).map
    (fun k => JValue.jstr (pyStr k))).take 10

/-- The per-entry metric coercion of `validate_response_format`: entries
must be dicts carrying both `name` and `value`; all four fields are
stringified. -/
def mClean1 (m : JValue) : Option JValue :=
  match m with
  | .jdict kvs =>
    if (jget nameKey kvs).isSome && (jget valueKey kvs).isSome then
      some (.jdict
        [(r"name", .jstr (pyStr (dget kvs nameKey (.jstr unknownMetricStr)))),
         (r"value", .jstr (pyStr (dget kvs valueKey (.jstr naStr)))),
         (r"unit", .jstr (pyStr (dget kvs unitKey (.jstr [])))),
         (r"category", .jstr (pyStr (dget kvs categoryKey (.jstr generalStr))))])
    else none
  | _ => none

/-- `isinstance(v, list)` coercion: the elements when `v` is a list, else
the empty list. -/
def jlistOrNil (v : JValue) : List JValue :=
  match v with
  | .jlist l => l
  | _ => []

/-- `validate_response_format(response_data)`; `ts` is the freshly generated
timestamp.  A non-dict input falls back to
`create_robust_fallback_response("", "Invalid response format")` (the
`hasattr(response_data, 'json')` branch concerns Flask `Response` objects,
which are outside the value domain modelled here). -/
def validate_response_format (response_data : JValue) (ts : Str) : JValue :=
  match response_data with
  | .jdict kvs =>
    let keywords := kwClean (jlistOrNil (dget kvs keywordsKey (.jlist [])))
    let metrics :=
      (List.filterMap mClean1 (jlistOrNil (dget kvs metricsKey (.jlist [])))).take 8
    let plotData := JValue.jlist (jlistOrNil (dget kvs plotDataKey (.jlist [])))
    .jdict [(r"summary", dget kvs summaryKey (.jstr defSummaryStr)),
            (r"keywords", .jlist keywords),
            (r"metrics", .jlist metrics),
            (r"insights", dget kvs insightsKey (.jstr defInsightsStr)),
            (r"plotData", plotData),
            (r"timestamp", .jstr ts),
            (r"processedLocally", .jbool true),
            (r"processedWithAI", .jbool true),
            (r"competitiveAdvantages",
              dget kvs compAdvKey (.jlist [.jstr advDefault1, .jstr advDefault2])),
            (r"marketPosition", dget kvs marketPosKey (.jstr defMPStr)),
            (r"successIndicators",
              dget kvs successIndKey
                (.jlist [.jstr siDefault1, .jstr siDefault2, .jstr siDefault3]))]
  | _ => create_robust_fallback_response [] invalidFormatStr ts

/-! ## Source embedding: `process_full_document` (app.py lines 928-972)

The external generation capability `call_runpod_llama(prompt, max_tokens)`
is an argument `gen : Str → Option Nat → Str` (it returns either generated
text or an `"Error: ..."` string; it performs no observable side effect on
the pipeline state). -/

def errMark : Str := "Error:".data

def pfdPromptHead : Str := "CRITICAL: Write a COMPLETE executive summary. Do NOT stop mid-sentence.\n\nTASK: Create comprehensive business summary\nREQUIREMENTS:\n- EXACTLY 300 words minimum\n- MUST end with period (.)\n- Cover financial metrics, market position, growth strategy\n- Professional executive tone\n\nDOCUMENT:\n".data

def pfdPromptTail : Str := "\n\nRESPONSE FORMAT:\nWrite a complete 300+ word executive summary ending with a period. Do not truncate:".data

/-- `process_full_document(text)`: pattern extraction first, then an AI
enhancement attempt that overwrites `summary`/`insights` only when the
generated text carries no error sentinel, is long enough and ends in
terminal punctuation. -/
def process_full_document (gen : Str → Option Nat → Str) (text ts : Str) : JValue :=
  let extracted_data := extract_data_from_text_simple text ts
  let enhanced_prompt := pfdPromptHead ++ text.take 2500 ++ pfdPromptTail
  let ai_summary := gen enhanced_prompt (some 1500)
  if !containsSub errMark ai_summary && 150 < (pystrip ai_summary).length &&
      endsInTerminal (pystrip ai_summary) then
    dictSet (dictSet extracted_data summaryKey (.jstr (pystrip ai_summary)))
      insightsKey (.jstr (pystrip ai_summary))
  else extracted_data

/-! ## Source embedding: `process_with_chunking` (app.py lines 1120-1226) -/

def pwcSummaryHead : Str := "Provide a concise 2-3 sentence business summary:\n\n".data

def pwcSummaryTail : Str := "\n\nSummary:".data

def pwcKwHead : Str := "Extract 5 key business terms. Return only terms separated by commas:\n\n".data

def pwcKwTail : Str := "\n\nTerms:".data

def pwcMetricsHead : Str := "List financial numbers and metrics. Format as \"Label: Value\":\n\n".data

def pwcMetricsTail : Str := "\n\nMetrics:".data

def summaryPrefLow : Str := "summary:".data

def termsPrefLow : Str := "terms:".data

def bizTermsPrefLow : Str := "business terms:".data

def metricsPrefLow : Str := "metrics:".data

/-- Per-chunk summary contribution of `process_with_chunking`. -/
def chunkSummaryOf (gen : Str → Option Nat → Str) (chunk : Str) : List Str :=
  let s := gen (pwcSummaryHead ++ chunk.take 800 ++ pwcSummaryTail) none
  if !containsSub errMark s && 20 < (pystrip s).length then
    let clean := pystrip s
    [if isPrefixStr summaryPrefLow (pylower clean) then pystrip (clean.drop 8)
     else clean]
  else []

/-- Per-chunk keyword contribution of `process_with_chunking`. -/
def chunkKeywordsOf (gen : Str → Option Nat → Str) (chunk : Str) : List Str :=
  let t := gen (pwcKwHead ++ chunk.take 600 ++ pwcKwTail) none
  if !containsSub errMark t && 3 < (pystrip t).length then
    let ck0 := pystrip t
    let ck :=
      if isPrefixStr bizTermsPrefLow (pylower ck0) ||
          isPrefixStr termsPrefLow (pylower ck0) then
        match splitFirstColon ck0 with
        | some (_, after) => pystrip after
        | none => ck0
      else ck0
    (((pysplitD ',' ck).map
        (fun k => pystripChars [quoteC] (pystripChars ['"'] (pystrip k)))).filter
      (fun k => !k.isEmpty && 2 < k.length && k.length < 30)).take 5
  else []

/-- Per-chunk metric contribution of `process_with_chunking` — note: no
deduplication happens here or downstream on this path. -/
def chunkMetricsOf (gen : Str → Option Nat → Str) (chunk : Str) : List SimpleMetric :=
  let t := gen (pwcMetricsHead ++ chunk.take 500 ++ pwcMetricsTail) none
  if !containsSub errMark t && 10 < (pystrip t).length then
    let cm0 := pystrip t
    let cm :=
      if isPrefixStr metricsPrefLow (pylower cm0) then pystrip (cm0.drop 8) else cm0
    (pysplitD '\n' cm).filterMap (fun rawLine =>
      let l := pystrip rawLine
      if containsSub [':'] l && 5 < l.length && l.length < 100 then
        match splitFirstColon l with
        | some (p0, p1) =>
          let name := pystrip (pystripChars ['•'] (pystripChars ['-'] (pystrip p0)))
          let value := pystrip p1
          if !name.isEmpty && !value.isEmpty && name.length < 50 then
            some (SimpleMetric.mk name value [] generalStr)
          else none
        | none => none
      else none)
  else []

def sumNAStr : Str := "Summary not available".data

def chunkedModeStr : Str := "chunked".data

def insHead : Str := "Document processed using ".data

def insTail : Str := " chunks with local AI analysis".data

/-- `process_with_chunking(text)` (legacy chunking mode). -/
def process_with_chunking (gen : Str → Option Nat → Str) (text ts : Str) : JValue :=
  let chunks := if 2000 < text.length then chunk_text text 10000 else [text]
  let all_summaries := (chunks.map (chunkSummaryOf gen)).flatten
  let all_keywords := (chunks.map (chunkKeywordsOf gen)).flatten
  let all_metrics := (chunks.map (chunkMetricsOf gen)).flatten
  let final_summary :=
    if !all_summaries.isEmpty then (pyjoin sp1 all_summaries).take 800 else sumNAStr
  let final_keywords := (dedupFirst all_keywords).take 10
  .jdict [(r"summary", .jstr final_summary),
          (r"keywords", .jlist (final_keywords.map .jstr)),
          (r"metrics", .jlist (all_metrics.map metricToJ)),
          (r"insights", .jstr (insHead ++ natToStr chunks.length ++ insTail)),
          (r"plotData", .jlist []),
          (r"processing_mode", .jstr chunkedModeStr),
          (r"chunk_count", .jint (Int.ofNat chunks.length)),
          (r"original_length", .jint (Int.ofNat text.length)),
          (r"timestamp", .jstr ts)]

/-! ## Source embedding: `process_sensitive_document` (app.py lines 886-926) -/

def noTextStr : Str := "No text provided".data

/-- The `/process-sensitive-document` endpoint on a parsed JSON body
(an association list): missing/empty text yields the 400 response
`{'error': 'No text provided'}`; otherwise the configured processing path is
run and normalised.  A truthy non-string `text` raises `TypeError` at
`len(text)` in the source before any response is built; that path is
modelled by the marker `(500, jnull)`.  The internal `try/except` fallbacks
are unreachable here because the modelled pipeline functions are total. -/
def process_sensitive_document (gen : Str → Option Nat → Str) (useChunking : Bool)
    (data : List (String × JValue)) (ts : Str) : Nat × JValue :=
  let text := dget data textKey (.jstr [])
  if !truthy text then (400, .jdict [(r"error", .jstr noTextStr)])
  else
    match text with
    | .jstr t =>
      let result :=
        if useChunking then process_with_chunking gen t ts
        else process_full_document gen t ts
      (200, validate_response_format result ts)
    | _ => (500, .jnull)

/-! ## Specification-side definitions

Predicates written from the wording of the claims, to be compared with the
source embedding. -/

/-- C3's acceptance condition exactly as the claim states it: the candidate
contains `':'` and EITHER some name variation longer than 2 characters —
the full lowercased name, the name's first word, or the name with
`"rate"`/`"count"` removed — is a substring of the lowercased source text,
OR some numeric substring of the value part occurs verbatim in the source
text. -/
def claimAcceptsStated (sourceText candidate : Str) : Bool :=
  match splitFirstColon candidate with
  | some (rawName, rawValue) =>
    let name := pylower (pystrip rawName)
    let value := pystrip rawValue
    let variations := [name, (pysplitWs name).headD [],
                       pystrip (replaceAll countStr [] (replaceAll rateStr [] name))]
    variations.any (fun v => decide (2 < v.length) && containsSub v (pylower sourceText)) ||
      (findNumbers value).any (fun n => containsSub n sourceText)
  | none => false

/-- The amended C3 condition: same as `claimAcceptsStated` plus the fourth
variation the code actually uses, the name with whitespace runs normalised
to single spaces (`' '.join(name.split())`). -/
def claimAcceptsAmended (sourceText candidate : Str) : Bool :=
  match splitFirstColon candidate with
  | some (rawName, rawValue) =>
    let name := pylower (pystrip rawName)
    let value := pystrip rawValue
    let variations := [name, pyjoin sp1 (pysplitWs name), (pysplitWs name).headD [],
                       pystrip (replaceAll countStr [] (replaceAll rateStr [] name))]
    variations.any (fun v => decide (2 < v.length) && containsSub v (pylower sourceText)) ||
      (findNumbers value).any (fun n => containsSub n sourceText)
  | none => false

/-- P5's plot invariant as stated by C2: matching label/value counts, 2 to 6
labels, and a chart type among bar, line, pie. -/
def validPlot (p : Plot) : Prop :=
  p.labels.length = p.values.length ∧ 2 ≤ p.labels.length ∧ p.labels.length ≤ 6 ∧
    (p.type = barStr ∨ p.type = lineTypeStr ∨ p.type = pieStr)

instance (p : Plot) : Decidable (validPlot p) := by
  unfold validPlot; infer_instance

/-- The metric names appearing in a pipeline result dict (used to state
dedup claims about outputs). -/
def metricNames (v : JValue) : List Str :=
  match jvGet v metricsKey with
  | some (.jlist ms) =>
    ms.filterMap (fun m =>
      match jvGet m nameKey with
      | some (.jstr s) => some s
      | _ => none)
  | _ => []

def processedWithAIKey : String := r"processedWithAI"

def processedLocallyKey : String := r"processedLocally"

def fallbackKey : String := r"fallback"

def errorKey : String := r"error"

/-! ## Helper lemmas -/

theorem containsSub_of_isPrefixStr {p s : Str} (h : isPrefixStr p s = true) :
    containsSub p s = true := by
  cases s with
  | nil => exact h
  | cons c cs => simp [containsSub, h]

theorem splitFirstColon_isSome (s : Str) :
    (splitFirstColon s).isSome = containsSub [':'] s := by
  induction s with
  | nil => rfl
  | cons c cs ih =>
    by_cases h : c = ':'
    · subst h; simp [splitFirstColon, containsSub, isPrefixStr]
    · simp only [splitFirstColon, if_neg h, containsSub, isPrefixStr]
      have hne : (':' = c) = False := by
        simp [eq_comm, h]
      rw [← ih]
      cases hsp : splitFirstColon cs with
      | none => simp [hne]
      | some p => cases p; simp [hne]

theorem vemAccepts_eq_claimAmended (t m : Str) :
    vemAccepts (pylower t) t m = claimAcceptsAmended t m := by
  unfold vemAccepts claimAcceptsAmended nameVariations
  cases hsp : splitFirstColon m with
  | none =>
    have hc : containsSub [':'] m = false := by
      rw [← splitFirstColon_isSome, hsp]; rfl
    simp [hc]
  | some p =>
    have hc : containsSub [':'] m = true := by
      rw [← splitFirstColon_isSome, hsp]; rfl
    cases p
    simp [hc, List.any_cons]

/-! ## Claim C3 -/

def c3Candidate : Str := "us  market: xyz".data

def c3Text : Str := "zz us market zz".data

/-- C3 (counterexample): the candidate `"us  market: xyz"` (double space in
the name) against source text `"zz us market zz"` is kept by
`validate_extracted_metrics` — via the whitespace-normalised variation
`"us market"` — although none of the three variations enumerated by the
claim (full name, first word, `rate`/`count`-stripped) is a substring longer
than 2 characters, and the value has no numeric part; so the claim's
"only if" direction fails. -/
theorem C3_counterexample :
    validate_extracted_metrics [c3Candidate] c3Text = [c3Candidate] ∧
      claimAcceptsStated c3Text c3Candidate = false :=
  ⟨rfl, rfl⟩

/-- C3 (amended): a candidate is kept by `validate_extracted_metrics` iff it
contains `':'` and EITHER some name variation longer than 2 characters — the
full lowercased name, the name with whitespace runs normalised to single
spaces, the name's first word, or the name with `"rate"`/`"count"` removed —
is a substring of the lowercased source text, OR some numeric substring of
the value part occurs verbatim in the source text; candidates failing both
tests are dropped silently (the output is exactly the filter of the input by
this condition). -/
theorem C3_validation_characterised (metrics : List Str) (original_text : Str) :
    validate_extracted_metrics metrics original_text =
      metrics.filter (claimAcceptsAmended original_text) := by
  unfold validate_extracted_metrics
  congr 1
  funext m
  exact vemAccepts_eq_claimAmended original_text m

/-! ## Claim C10 -/

/-- C10: `validate_extracted_metrics` only filters — its output is a
subsequence of the input candidate list (every element comes from the input,
order preserved, nothing added or duplicated). -/
theorem C10_validation_sublist (metrics : List Str) (original_text : Str) :
    List.Sublist (validate_extracted_metrics metrics original_text) metrics :=
  List.filter_sublist metrics

/-! ## Claim C2 -/

theorem normChartType_mem (t : Str) :
    normChartType t = barStr ∨ normChartType t = lineTypeStr ∨ normChartType t = pieStr := by
  unfold normChartType
  split
  · rename_i h
    rcases Bool.or_eq_true_iff.mp h with h' | h'
    · rcases Bool.or_eq_true_iff.mp h' with h'' | h''
      · exact Or.inl (by simpa using h'')
      · exact Or.inr (Or.inl (by simpa using h''))
    · exact Or.inr (Or.inr (by simpa using h'))
  · exact Or.inl rfl

theorem parsePlotLine_valid {l : Str} {p : Plot} (h : parsePlotLine l = some p) :
    validPlot p := by
  unfold parsePlotLine at h
  dsimp only at h
  split at h
  · split at h
    · split at h
      · rename_i hcond
        injection h with h
        subst h
        have hc := hcond
        simp only [Bool.and_eq_true, decide_eq_true_eq] at hc
        refine ⟨hc.1.1.1.1, hc.1.1.1.2, hc.1.1.2, normChartType_mem _⟩
      · exact absurd h (by simp)
    · exact absurd h (by simp)
  · exact absurd h (by simp)

theorem pepdLines_mem {ls : List Str} {p : Plot} (h : p ∈ pepdLines ls) :
    ∃ l ∈ ls, parsePlotLine l = some p := by
  induction ls with
  | nil => cases h
  | cons l ls ih =>
    revert h
    unfold pepdLines
    cases hpl : parsePlotLine l with
    | some q =>
      intro h
      rcases List.mem_cons.mp h with h | h
      · exact ⟨l, List.mem_cons_self .., h ▸ hpl⟩
      · rcases ih h with ⟨l', hl', hq⟩
        exact ⟨l', List.mem_cons_of_mem _ hl', hq⟩
    | none =>
      intro h
      rcases ih h with ⟨l', hl', hq⟩
      exact ⟨l', List.mem_cons_of_mem _ hl', hq⟩

def c2Keyword : Str := "revenue".data

/-- C2 (counterexample): `generate_basic_plots` with the single keyword
`"revenue"` produces one plot whose `labels` has 1 entry while `values` has
5 entries — so `len(labels) == len(values)` (and `2 ≤ len(labels)`) fails
for keyword lists with fewer than 5 entries. -/
theorem C2_counterexample :
    (generate_basic_plots [c2Keyword] []).map
        (fun p => (p.labels.length, p.values.length)) = [(1, 5)] ∧
      (1 : Nat) ≠ 5 :=
  ⟨rfl, by decide⟩

/-- C2 (amended): every `PlotDescriptor` produced by
`parse_enhanced_plot_data` satisfies `len(labels) == len(values)`,
`2 ≤ len(labels) ≤ 6` and `type ∈ {bar, line, pie}`; the plots built by
`generate_basic_plots` satisfy the invariant provided the keyword list has
at least 5 entries, and the `plotData` entry built inside
`extract_data_from_text_simple` satisfies it provided the metrics list has
at least 4 entries (for shorter lists those two builders pair the truncated
label list with a fixed-length value list and the invariant fails). -/
theorem C2_plot_validity :
    (∀ response : Str, ∀ p ∈ parse_enhanced_plot_data response, validPlot p) ∧
      (∀ (keywords : List Str) (ms : List JValue), 5 ≤ keywords.length →
        ∀ p ∈ generate_basic_plots keywords ms, validPlot p) ∧
      (∀ ms : List SimpleMetric, 4 ≤ ms.length →
        ∀ p ∈ simplePlotData ms, validPlot p) := by
  refine ⟨?_, ?_, ?_⟩
  · intro response p hp
    unfold parse_enhanced_plot_data at hp
    split at hp
    · cases hp
    · dsimp only at hp
      split at hp
      · cases hp
      · rcases pepdLines_mem (List.mem_of_mem_take hp) with ⟨l, _, hl⟩
        exact parsePlotLine_valid hl
  · intro keywords ms h5 p hp
    unfold generate_basic_plots at hp
    have hne : keywords.isEmpty = false := by
      cases keywords with
      | nil => simp at h5
      | cons a l => rfl
    have h3 : 3 < keywords.length := by omega
    simp only [hne, Bool.not_false, if_true, if_pos h3, List.nil_append] at hp
    replace hp : p ∈
        [(⟨topicsTitle, barStr, keywords.take 5, [20, 15, 12, 10, 8]⟩ : Plot),
         ⟨focusTitle, pieStr, keywords.take 4, [30, 25, 25, 20]⟩] := hp
    rcases List.mem_cons.mp hp with hp | hp
    · subst hp
      refine ⟨?_, ?_, ?_, Or.inl rfl⟩ <;>
        simp [List.length_take] <;> omega
    · rcases List.mem_cons.mp hp with hp | hp
      · subst hp
        refine ⟨?_, ?_, ?_, Or.inr (Or.inr rfl)⟩ <;>
          simp [List.length_take] <;> omega
      · cases hp
  · intro ms h4 p hp
    unfold simplePlotData at hp
    have hne : ms.isEmpty = false := by
      cases ms with
      | nil => simp at h4
      | cons a l => rfl
    simp only [hne, Bool.not_false, if_true] at hp
    rcases List.mem_cons.mp hp with hp | hp
    · subst hp
      refine ⟨?_, ?_, ?_, Or.inl rfl⟩ <;>
        simp [List.length_take] <;> omega
    · cases hp

def c2FiveKws : List Str :=
  [r"alpha".data, r"betaa".data, r"gamma".data, r"delta".data, r"epsil".data]

/-- Witness for C2 at a concrete five-keyword list. -/
theorem C2_plot_validity_witness :
    5 ≤ c2FiveKws.length ∧
      validPlot ⟨topicsTitle, barStr, c2FiveKws.take 5, [20, 15, 12, 10, 8]⟩ :=
  ⟨by decide, C2_plot_validity.2.1 c2FiveKws [] (by decide) _ (by decide)⟩

/-! ## Claim C9 -/

/-- Sum of word lengths plus one separator each — the `current_length`
invariant of the chunking loop. -/
def chunkLen (ws : List Str) : Nat := (ws.map (fun w => w.length + 1)).sum

theorem chunkLen_append (ws : List Str) (w : Str) :
    chunkLen (ws ++ [w]) = chunkLen ws + (w.length + 1) := by
  simp [chunkLen]

theorem pyjoin_sp1_length (ws : List Str) (h : ws ≠ []) :
    (pyjoin sp1 ws).length + 1 = chunkLen ws := by
  induction ws with
  | nil => exact absurd rfl h
  | cons w ws ih =>
    cases ws with
    | nil => simp [pyjoin, chunkLen]
    | cons y r =>
      have := ih (by simp)
      simp only [pyjoin, chunkLen, List.map_cons, List.sum_cons,
        List.length_append] at *
      have hsp : sp1.length = 1 := rfl
      omega

theorem chunkGo_bound (m : Nat) (ws : List Str) :
    ∀ (cur : List Str) (cl : Nat),
      (∀ w ∈ ws, w.length + 1 ≤ m) → cl = chunkLen cur → (cur ≠ [] → cl ≤ m) →
      ∀ ch ∈ chunkGo m ws cur cl, ch ≠ [] ∧ chunkLen ch ≤ m := by
  induction ws with
  | nil =>
    intro cur cl _ hcl hbound ch hch
    unfold chunkGo at hch
    split at hch
    · cases hch
    · rename_i hcur
      rcases List.mem_singleton.mp hch with rfl
      have hne : ch ≠ [] := by simpa [List.isEmpty_iff] using hcur
      exact ⟨hne, hcl ▸ hbound hne⟩
  | cons w ws ih =>
    intro cur cl hws hcl hbound ch hch
    have hw : w.length + 1 ≤ m := hws w (List.mem_cons_self ..)
    have hws' : ∀ u ∈ ws, u.length + 1 ≤ m := fun u hu => hws u (List.mem_cons_of_mem _ hu)
    unfold chunkGo at hch
    split at hch
    · rename_i hcond
      simp only [Bool.and_eq_true, decide_eq_true_eq, Bool.not_eq_true',
        List.isEmpty_eq_false] at hcond
      rcases List.mem_cons.mp hch with rfl | hch'
      · exact ⟨hcond.2, hcl ▸ hbound hcond.2⟩
      · exact ih [w] (w.length + 1) hws' (by simp [chunkLen]) (fun _ => hw) ch hch'
    · rename_i hcond
      have hstep : cur ++ [w] ≠ [] → cl + (w.length + 1) ≤ m := by
        intro _
        by_cases hcur : cur = []
        · subst hcur
          simp [chunkLen] at hcl
          omega
        · rcases Nat.lt_or_ge m (cl + (w.length + 1)) with hlt | hge
          · exact absurd (by
              simp only [Bool.and_eq_true, decide_eq_true_eq, Bool.not_eq_true',
                List.isEmpty_eq_false]
              exact ⟨hlt, hcur⟩) hcond
          · exact hge
      exact ih (cur ++ [w]) (cl + (w.length + 1)) hws'
        (by rw [hcl, chunkLen_append]) hstep ch hch

def c9Text : Str := "aaaa bbbb".data

def c9ChunkA : Str := "aaaa".data

def c9ChunkB : Str := "bbbb".data

/-- C9 (counterexample): with budget 3, the text `"aaaa bbbb"` (whose words
are longer than the budget) is split into chunks `["aaaa", "bbbb"]` of
length 4 > 3 — so "each chunk's length is at most `max_chars`" fails for
words exceeding the budget. -/
theorem C9_counterexample :
    chunk_text c9Text 3 = [c9ChunkA, c9ChunkB] ∧ 3 < c9ChunkA.length :=
  ⟨rfl, by decide⟩

/-- C9 (amended): `chunk_text` returns word-bounded chunks; provided every
whitespace-delimited word `w` of the text satisfies
`len(w) + 1 ≤ max_chars`, each chunk's length is at most `max_chars` (a
single longer word yields a chunk exceeding the budget); and —
unconditionally — whenever `len(text) ≤ max_chars` the result is the
single-element list `[text]`. -/
theorem C9_chunk_bounds (text : Str) (max_chars : Nat) :
    ((∀ w ∈ pysplitWs text, w.length + 1 ≤ max_chars) →
        ∀ c ∈ chunk_text text max_chars, c.length ≤ max_chars) ∧
      (text.length ≤ max_chars → chunk_text text max_chars = [text]) := by
  constructor
  · intro h c hc
    unfold chunk_text at hc
    split at hc
    · rcases List.mem_singleton.mp hc with rfl
      assumption
    · rcases List.mem_map.mp hc with ⟨ch, hch, rfl⟩
      have hspec := chunkGo_bound max_chars (pysplitWs text) [] 0 h rfl
        (fun hne => absurd rfl hne) ch hch
      have := pyjoin_sp1_length ch hspec.1
      omega
  · intro hle
    unfold chunk_text
    rw [if_pos hle]

def c9WText : Str := "aa bb".data

def c9SText : Str := "abcd".data

/-- Witness for C9: the chunk-length bound at the concrete text `"aa bb"`
with budget 3 (whose words satisfy the hypothesis), and the unconditional
singleton clause at `"abcd"` with budget 4 — an input whose single word
violates the word hypothesis (4 + 1 > 4), so the clause really is
hypothesis-free. -/
theorem C9_chunk_bounds_witness :
    ((∀ w ∈ pysplitWs c9WText, w.length + 1 ≤ 3) ∧
        ∀ c ∈ chunk_text c9WText 3, c.length ≤ 3) ∧
      (c9SText.length ≤ 4 ∧ chunk_text c9SText 4 = [c9SText]) :=
  ⟨⟨by decide, (C9_chunk_bounds c9WText 3).1 (by decide)⟩,
    by decide, (C9_chunk_bounds c9SText 4).2 (by decide)⟩

/-! ## Claim C6 -/

def tsA : Str := "2024-01-01T00:00:00".data

def tsB : Str := "2024-01-01T00:00:01".data

def errUnavailable : Str := "Error: RunPod API timeout".data

/-- A generation capability that always fails (for closed instances). -/
def genFail : Str → Option Nat → Str := fun _ _ => errUnavailable

/-- C6 (counterexample): a request body without text gets status 400 with
body `{'error': 'No text provided'}` — the body has no `fallback` key (and
none of the `AnalysisResult` fields), contradicting the claim that the body
is a best-effort `AnalysisResult` containing `fallback: true`. -/
theorem C6_counterexample :
    process_sensitive_document genFail false [] tsA =
        (400, .jdict [(r"error", .jstr noTextStr)]) ∧
      jvGet (process_sensitive_document genFail false [] tsA).2 fallbackKey = none ∧
      jvGet (process_sensitive_document genFail false [] tsA).2 summaryKey = none :=
  ⟨rfl, rfl, rfl⟩

/-- C6 (amended): when the request carries no text (missing or falsy `text`
field), `process_sensitive_document` returns the distinct failure status 400
whose body consists solely of the error description
`{'error': 'No text provided'}` — no `fallback` flag and no `AnalysisResult`
fields are included. -/
theorem C6_missing_text (gen : Str → Option Nat → Str) (useChunking : Bool)
    (data : List (String × JValue)) (ts : Str)
    (h : truthy (dget data textKey (.jstr [])) = false) :
    process_sensitive_document gen useChunking data ts =
      (400, .jdict [(r"error", .jstr noTextStr)]) := by
  unfold process_sensitive_document
  dsimp only
  rw [h]
  rfl

/-- Witness for C6 at the empty request body. -/
theorem C6_missing_text_witness :
    truthy (dget [] textKey (.jstr [])) = false ∧
      process_sensitive_document genFail false [] tsB =
        (400, .jdict [(r"error", .jstr noTextStr)]) :=
  ⟨rfl, C6_missing_text genFail false [] tsB rfl⟩

/-! ## Claim C7 -/

theorem lineMetric_spec {l m : Str} (h : lineMetric l = some m) :
    ∃ nm v : Str,
      splitFirstColon (pystrip (stripLeadingBullets (pystrip l))) = some (nm, v) ∧
        2 < (pystrip nm).length ∧ 0 < (pystrip v).length ∧
        hasDigitDollarPct (pystrip v) = true ∧
        (pystrip (stripLeadingBullets (pystrip l))).length < 150 ∧
        m = pystrip nm ++ ':' :: ' ' :: pystrip v := by
  unfold lineMetric at h
  dsimp only at h
  split at h
  · cases h
  · split at h
    · rename_i hsp
      split at h
      · rename_i nm v heq
        split at h
        · rename_i hcond
          injection h with h
          simp only [Bool.and_eq_true, decide_eq_true_eq] at hcond
          exact ⟨nm, v, heq, hcond.1.1.1, hcond.1.1.2, hcond.1.2, hcond.2, h.symm⟩
        · cases h
      · cases h
    · cases h

theorem pamrGo_nodup (ls : List Str) : ∀ acc : List Str, acc.Nodup → (pamrGo acc ls).Nodup := by
  induction ls with
  | nil => intro acc h; exact h
  | cons l ls ih =>
    intro acc h
    unfold pamrGo
    cases hlm : lineMetric l with
    | some m =>
      by_cases hmem : m ∈ acc
      · simp only [if_pos hmem]
        exact ih acc h
      · simp only [if_neg hmem]
        exact ih (acc ++ [m]) (by simp [List.nodup_append, h, hmem])
    | none => exact ih acc h

theorem pamrGo_mem (ls : List Str) :
    ∀ (acc : List Str) (m : Str), m ∈ pamrGo acc ls →
      m ∈ acc ∨ ∃ l ∈ ls, lineMetric l = some m := by
  induction ls with
  | nil => intro acc m h; exact Or.inl h
  | cons l ls ih =>
    intro acc m h
    unfold pamrGo at h
    cases hlm : lineMetric l with
    | some m' =>
      rw [hlm] at h
      dsimp only at h
      by_cases hmem : m' ∈ acc
      · rw [if_pos hmem] at h
        rcases ih acc m h with h' | ⟨l', hl', hm'⟩
        · exact Or.inl h'
        · exact Or.inr ⟨l', List.mem_cons_of_mem _ hl', hm'⟩
      · rw [if_neg hmem] at h
        rcases ih (acc ++ [m']) m h with h' | ⟨l', hl', hm'⟩
        · rcases List.mem_append.mp h' with h'' | h''
          · exact Or.inl h''
          · rcases List.mem_singleton.mp h'' with rfl
            exact Or.inr ⟨l, List.mem_cons_self .., hlm⟩
        · exact Or.inr ⟨l', List.mem_cons_of_mem _ hl', hm'⟩
    | none =>
      rw [hlm] at h
      dsimp only at h
      rcases ih acc m h with h' | ⟨l', hl', hm'⟩
      · exact Or.inl h'
      · exact Or.inr ⟨l', List.mem_cons_of_mem _ hl', hm'⟩

/-- C7: every pair in the output of `parse_ai_metrics_response` comes from a
line of the raw response whose stripped, bullet-stripped form splits at its
first `':'` into a name longer than 2 characters and a non-empty value
containing a digit, `'$'` or `'%'`, with the stripped line under 150
characters; and the output contains no exact-string duplicates.
Non-conforming lines contribute nothing (the function is total and never
fails). -/
theorem C7_parsed_pairs (response : Str) :
    (parse_ai_metrics_response response).Nodup ∧
      ∀ m ∈ parse_ai_metrics_response response,
        ∃ line ∈ pysplitD '\n' response,
          ∃ nm v : Str,
            splitFirstColon (pystrip (stripLeadingBullets (pystrip line))) = some (nm, v) ∧
              2 < (pystrip nm).length ∧ 0 < (pystrip v).length ∧
              hasDigitDollarPct (pystrip v) = true ∧
              (pystrip (stripLeadingBullets (pystrip line))).length < 150 ∧
              m = pystrip nm ++ ':' :: ' ' :: pystrip v := by
  unfold parse_ai_metrics_response
  split
  · exact ⟨List.nodup_nil, fun m hm => absurd hm (List.not_mem_nil m)⟩
  · constructor
    · exact pamrGo_nodup _ [] List.nodup_nil
    · intro m hm
      rcases pamrGo_mem _ [] m hm with h | ⟨l, hl, hlm⟩
      · cases h
      · exact ⟨l, hl, lineMetric_spec hlm⟩

def c7Response : Str := "Noise preamble\n1. Revenue: $5M\nRevenue: $5M\nno colon line".data

def c7Pair : Str := "Revenue: $5M".data

/-- Witness for C7 at a concrete noisy response: the duplicate line is
deduplicated and the surviving pair satisfies the stated origin property. -/
theorem C7_parsed_pairs_witness :
    parse_ai_metrics_response c7Response = [c7Pair] ∧
      (parse_ai_metrics_response c7Response).Nodup ∧
      (∃ line ∈ pysplitD '\n' c7Response,
        ∃ nm v : Str,
          splitFirstColon (pystrip (stripLeadingBullets (pystrip line))) = some (nm, v) ∧
            2 < (pystrip nm).length ∧ 0 < (pystrip v).length ∧
            hasDigitDollarPct (pystrip v) = true ∧
            (pystrip (stripLeadingBullets (pystrip line))).length < 150 ∧
            c7Pair = pystrip nm ++ ':' :: ' ' :: pystrip v) :=
  ⟨rfl, (C7_parsed_pairs c7Response).1,
    (C7_parsed_pairs c7Response).2 c7Pair (by decide)⟩

/-! ## Claim C8 -/

theorem endsInPeriod_of_getLast {s : Str} (h : s.getLast? = some '.') :
    endsInPeriod s = true := by
  unfold endsInPeriod
  rw [h]
  simp

theorem endsInPeriod_concat (s : Str) : endsInPeriod (s ++ ['.']) = true :=
  endsInPeriod_of_getLast (by simp [List.getLast?_append])

/-- The joined fixed filler block of the summary builder. -/
def fillerJoined : Str := pyjoin sp1 fillerSentences

theorem fillerJoined_ne_nil : fillerJoined ≠ [] := by decide

theorem fillerJoined_ends : endsInPeriod fillerJoined = true := by decide

theorem ne_nil_of_endsInPeriod {s : Str} (h : endsInPeriod s = true) : s ≠ [] := by
  intro hnil
  subst hnil
  exact Bool.false_ne_true h

theorem ne_nil_of_suffix {s t : Str} (hne : s ≠ []) (h : s <:+ t) : t ≠ [] := by
  rcases h with ⟨u, rfl⟩
  intro hnil
  rcases List.append_eq_nil.mp hnil with ⟨-, h2⟩
  exact hne h2

theorem getLast_of_endsInPeriod {s : Str} (h : endsInPeriod s = true) :
    s.getLast? = some '.' := by
  unfold endsInPeriod at h
  cases hl : s.getLast? with
  | none => rw [hl] at h; exact absurd h (by simp)
  | some c => rw [hl] at h; simp only [decide_eq_true_eq] at h; rw [h]

/-- The under-200-words branch of the summary builder, for an arbitrary
`base_summary`: the filler block ends up as a suffix, the result is
non-empty and ends with a period. -/
theorem appended_fillers_spec (base : Str) :
    fillerJoined <:+ pyjoin sp1 ((base :: fillerSentences).filter (fun p => !p.isEmpty)) ∧
      endsInPeriod (pyjoin sp1 ((base :: fillerSentences).filter (fun p => !p.isEmpty))) = true := by
  have hfs : fillerSentences.filter (fun p => !p.isEmpty) = fillerSentences := by decide
  by_cases hb : base.isEmpty
  · have hfil : (base :: fillerSentences).filter (fun p => !p.isEmpty) = fillerSentences := by
      rw [List.filter_cons, hfs]
      simp [hb]
    rw [hfil]
    exact ⟨List.suffix_refl _, fillerJoined_ends⟩
  · have hfil : (base :: fillerSentences).filter (fun p => !p.isEmpty) =
        base :: fillerSentences := by
      rw [List.filter_cons, hfs]
      simp [hb]
    rw [hfil]
    have hjoin : pyjoin sp1 (base :: fillerSentences) = base ++ sp1 ++ fillerJoined := rfl
    rw [hjoin]
    constructor
    · exact ⟨base ++ sp1, by rw [List.append_assoc]⟩
    · refine endsInPeriod_of_getLast ?_
      rw [List.append_assoc, List.getLast?_append_of_ne_nil _ ?h2]
      · rw [List.getLast?_append_of_ne_nil _ fillerJoined_ne_nil]
        exact getLast_of_endsInPeriod fillerJoined_ends
      · exact fun hnil => fillerJoined_ne_nil (List.append_eq_nil.mp hnil).2

theorem underBranch_spec (base : Str) :
    (if endsInPeriod (pyjoin sp1 ((base :: fillerSentences).filter (fun p => !p.isEmpty))) = true then
        pyjoin sp1 ((base :: fillerSentences).filter (fun p => !p.isEmpty))
      else pyjoin sp1 ((base :: fillerSentences).filter (fun p => !p.isEmpty)) ++ ['.']) ≠ [] ∧
    endsInPeriod
      (if endsInPeriod (pyjoin sp1 ((base :: fillerSentences).filter (fun p => !p.isEmpty))) = true then
        pyjoin sp1 ((base :: fillerSentences).filter (fun p => !p.isEmpty))
      else pyjoin sp1 ((base :: fillerSentences).filter (fun p => !p.isEmpty)) ++ ['.']) = true ∧
    fillerJoined <:+
      (if endsInPeriod (pyjoin sp1 ((base :: fillerSentences).filter (fun p => !p.isEmpty))) = true then
        pyjoin sp1 ((base :: fillerSentences).filter (fun p => !p.isEmpty))
      else pyjoin sp1 ((base :: fillerSentences).filter (fun p => !p.isEmpty)) ++ ['.']) := by
  obtain ⟨hsuf, hend⟩ := appended_fillers_spec base
  rw [if_pos hend]
  exact ⟨ne_nil_of_suffix fillerJoined_ne_nil hsuf, hend, hsuf⟩

theorem simpleSummary_spec (text : Str) :
    simpleSummary text ≠ [] ∧ endsInPeriod (simpleSummary text) = true ∧
      ((summaryLoop (((pysplitD '.' text).map pystrip).filter
          (fun s => 30 < s.length)) 0).2 < 200 →
        fillerJoined <:+ simpleSummary text) := by
  unfold simpleSummary
  dsimp only
  split
  · obtain ⟨h1, h2, h3⟩ := underBranch_spec
      (if (!(summaryLoop (((pysplitD '.' text).map pystrip).filter
            (fun s => 30 < s.length)) 0).1.isEmpty) = true then
        pyjoin dotSp (summaryLoop (((pysplitD '.' text).map pystrip).filter
            (fun s => 30 < s.length)) 0).1 ++ ['.']
      else [])
    exact ⟨h1, h2, fun _ => h3⟩
  · rename_i hwc
    refine ⟨?_, ?_, fun h => absurd h hwc⟩
    · split
      · simp
      · exact ne_nil_of_endsInPeriod (by decide)
    · split
      · exact endsInPeriod_concat _
      · decide

/-- C8: for every input text, the summary built by the pattern-extraction
path is non-empty and ends with a period; qualifying sentences (split on
`'.'`, longer than 30 characters) are concatenated in source order toward
the 250-word budget by `summaryLoop`, and whenever the accumulated word
count stays under 200 the fixed sequence of generic analytical filler
sentences is appended (it is a suffix of the summary). -/
theorem C8_summary_wellformed (text : Str) :
    simpleSummary text ≠ [] ∧ endsInPeriod (simpleSummary text) = true ∧
      ((summaryLoop (((pysplitD '.' text).map pystrip).filter
          (fun s => 30 < s.length)) 0).2 < 200 →
        fillerJoined <:+ simpleSummary text) :=
  simpleSummary_spec text

def c8Text : Str := "Short note.".data

/-- Witness for C8 at a short concrete text (under the 200-word threshold,
so the filler suffix clause applies). -/
theorem C8_summary_wellformed_witness :
    simpleSummary c8Text ≠ [] ∧ endsInPeriod (simpleSummary c8Text) = true ∧
      ((summaryLoop (((pysplitD '.' c8Text).map pystrip).filter
          (fun s => 30 < s.length)) 0).2 < 200 ∧
        fillerJoined <:+ simpleSummary c8Text) :=
  ⟨(C8_summary_wellformed c8Text).1, (C8_summary_wellformed c8Text).2.1,
    by decide, (C8_summary_wellformed c8Text).2.2 (by decide)⟩

/-! ## Claim C1 -/

def xText : Str := "x".data

/-- C1 (counterexample): with a generation capability that always returns an
`"Error:"`-prefixed string and the non-empty input `"x"`, the pipeline
`process_full_document` followed by `validate_response_format` returns
`processedWithAI = true` (the normaliser hardcodes the flag), not `false` as
the claim states. -/
theorem C1_counterexample :
    (∀ (p : Str) (mt : Option Nat), isPrefixStr errMark (genFail p mt) = true) ∧
      xText ≠ [] ∧
      jvGet (validate_response_format (process_full_document genFail xText tsA) tsB)
        processedWithAIKey = some (.jbool true) :=
  ⟨fun _ _ => rfl, by decide, rfl⟩

/-- C1 (amended): if the generation capability always returns an
`"Error:"`-prefixed string, then for every non-empty input text the pipeline
(`process_full_document` followed by `validate_response_format`) still
returns a result whose `summary` is the non-empty, period-terminated
pattern-extracted summary — and whose `processedWithAI` field is `true`,
because `validate_response_format` sets that flag unconditionally. -/
theorem C1_fallback_guarantee (gen : Str → Option Nat → Str) (text ts1 ts2 : Str)
    (hgen : ∀ (p : Str) (mt : Option Nat), isPrefixStr errMark (gen p mt) = true)
    (_htext : text ≠ []) :
    jvGet (validate_response_format (process_full_document gen text ts1) ts2)
        summaryKey = some (.jstr (simpleSummary text)) ∧
      simpleSummary text ≠ [] ∧ endsInPeriod (simpleSummary text) = true ∧
      jvGet (validate_response_format (process_full_document gen text ts1) ts2)
        processedWithAIKey = some (.jbool true) := by
  have hcontains :
      containsSub errMark (gen (pfdPromptHead ++ text.take 2500 ++ pfdPromptTail) (some 1500)) =
        true :=
    containsSub_of_isPrefixStr (hgen _ _)
  have hpfd : process_full_document gen text ts1 = extract_data_from_text_simple text ts1 := by
    unfold process_full_document
    dsimp only
    rw [hcontains]
    rfl
  rw [hpfd]
  exact ⟨rfl, (simpleSummary_spec text).1, (simpleSummary_spec text).2.1, rfl⟩

/-- Witness for C1 at the concrete failing generator and input `"x"`. -/
theorem C1_fallback_guarantee_witness :
    (∀ (p : Str) (mt : Option Nat), isPrefixStr errMark (genFail p mt) = true) ∧
      xText ≠ [] ∧
      jvGet (validate_response_format (process_full_document genFail xText tsA) tsB)
        summaryKey = some (.jstr (simpleSummary xText)) :=
  ⟨fun _ _ => rfl, by decide,
    (C1_fallback_guarantee genFail xText tsA tsB (fun _ _ => rfl) (by decide)).1⟩

/-! ## Claim C4 -/

theorem map_filter_fixpoint {p : JValue → Bool} {g : JValue → JValue} :
    ∀ {l : List JValue}, (∀ x ∈ l, p x = true ∧ g x = x) →
      (l.filter p).map g = l := by
  intro l
  induction l with
  | nil => intro _; rfl
  | cons x xs ih =>
    intro h
    have hx := h x (List.mem_cons_self ..)
    rw [List.filter_cons, if_pos hx.1, List.map_cons, hx.2,
      ih (fun y hy => h y (List.mem_cons_of_mem _ hy))]

theorem kwClean_elem_spec {l : List JValue} :
    ∀ x ∈ kwClean l,
      (truthy x && decide (2 < (pyStr x).length)) = true ∧ JValue.jstr (pyStr x) = x := by
  intro x hx
  unfold kwClean at hx
  rcases List.mem_map.mp (List.mem_of_mem_take hx) with ⟨k, hk, rfl⟩
  have hcond := List.of_mem_filter hk
  simp only [Bool.and_eq_true, decide_eq_true_eq] at hcond
  have hlen : 2 < (pyStr k).length := hcond.2
  have hne : (pyStr k).isEmpty = false := by
    cases h : pyStr k with
    | nil => rw [h] at hlen; simp at hlen
    | cons a l => rfl
  constructor
  · show (!(pyStr k).isEmpty && decide (2 < (pyStr k).length)) = true
    rw [hne]
    simp [hlen]
  · rfl

theorem kwClean_idem (l : List JValue) : kwClean (kwClean l) = kwClean l := by
  conv_lhs => rw [kwClean]
  rw [map_filter_fixpoint kwClean_elem_spec]
  unfold kwClean
  rw [List.take_take]
  rfl

theorem filterMap_fixpoint {f : JValue → Option JValue} :
    ∀ {l : List JValue}, (∀ x ∈ l, f x = some x) → l.filterMap f = l := by
  intro l
  induction l with
  | nil => intro _; rfl
  | cons x xs ih =>
    intro h
    rw [List.filterMap_cons, h x (List.mem_cons_self ..),
      ih (fun y hy => h y (List.mem_cons_of_mem _ hy))]

theorem mClean1_out_fix {x y : JValue} (h : mClean1 x = some y) : mClean1 y = some y := by
  unfold mClean1 at h
  split at h
  · split at h
    · rename_i kvs hkeys
      injection h with h
      subst h
      rfl
    · cases h
  · cases h

theorem metricsClean_idem (l : List JValue) :
    ((((l.filterMap mClean1).take 8).filterMap mClean1)).take 8 =
      (l.filterMap mClean1).take 8 := by
  have hfix : ∀ x ∈ (l.filterMap mClean1).take 8, mClean1 x = some x := by
    intro x hx
    rcases List.mem_filterMap.mp (List.mem_of_mem_take hx) with ⟨z, _, hz⟩
    exact mClean1_out_fix hz
  rw [filterMap_fixpoint hfix, List.take_take]
  rfl

def xC4 : JValue := .jstr "hello".data

/-- C4 (counterexample): on a non-dict input (here the string `"hello"`),
`validate_response_format` returns the fallback response with
`processedWithAI = false`, `fallback = true` and an `error` field; applying
it a second time flips `processedWithAI` to `true` (and drops
`fallback`/`error`), so the result differs on a field other than
`timestamp` and idempotence fails for non-dict inputs. -/
theorem C4_counterexample :
    jvGet (validate_response_format xC4 tsB) processedWithAIKey =
        some (.jbool false) ∧
      jvGet (validate_response_format (validate_response_format xC4 tsA) tsB)
        processedWithAIKey = some (.jbool true) ∧
      jvGet (validate_response_format xC4 tsB) fallbackKey = some (.jbool true) ∧
      jvGet (validate_response_format (validate_response_format xC4 tsA) tsB)
        fallbackKey = none :=
  ⟨rfl, rfl, rfl, rfl⟩

/-- C4 (amended): the response normaliser is idempotent up to the timestamp
on every dict input: re-normalising a normalised result with a fresh
timestamp equals normalising the original input with that timestamp (all
fields agree; the `timestamp` field is regenerated each time).  For non-dict
inputs idempotence fails (see the counterexample). -/
theorem C4_normalize_idempotent (kvs : List (String × JValue)) (ts1 ts2 : Str) :
    validate_response_format (validate_response_format (.jdict kvs) ts1) ts2 =
      validate_response_format (.jdict kvs) ts2 := by
  have hk := kwClean_idem (jlistOrNil (dget kvs keywordsKey (.jlist [])))
  have hm := metricsClean_idem (jlistOrNil (dget kvs metricsKey (.jlist [])))
  calc validate_response_format (validate_response_format (.jdict kvs) ts1) ts2
      = .jdict [(r"summary", dget kvs summaryKey (.jstr defSummaryStr)),
        (r"keywords", .jlist (kwClean (kwClean (jlistOrNil (dget kvs keywordsKey (.jlist [])))))),
        (r"metrics", .jlist (((((jlistOrNil (dget kvs metricsKey (.jlist []))).filterMap mClean1).take 8).filterMap mClean1).take 8)),
        (r"insights", dget kvs insightsKey (.jstr defInsightsStr)),
        (r"plotData", .jlist (jlistOrNil (dget kvs plotDataKey (.jlist [])))),
        (r"timestamp", .jstr ts2),
        (r"processedLocally", .jbool true),
        (r"processedWithAI", .jbool true),
        (r"competitiveAdvantages",
          dget kvs compAdvKey (.jlist [.jstr advDefault1, .jstr advDefault2])),
        (r"marketPosition", dget kvs marketPosKey (.jstr defMPStr)),
        (r"successIndicators",
          dget kvs successIndKey
            (.jlist [.jstr siDefault1, .jstr siDefault2, .jstr siDefault3]))] := rfl
    _ = .jdict [(r"summary", dget kvs summaryKey (.jstr defSummaryStr)),
        (r"keywords", .jlist (kwClean (jlistOrNil (dget kvs keywordsKey (.jlist []))))),
        (r"metrics", .jlist (((jlistOrNil (dget kvs metricsKey (.jlist []))).filterMap mClean1).take 8)),
        (r"insights", dget kvs insightsKey (.jstr defInsightsStr)),
        (r"plotData", .jlist (jlistOrNil (dget kvs plotDataKey (.jlist [])))),
        (r"timestamp", .jstr ts2),
        (r"processedLocally", .jbool true),
        (r"processedWithAI", .jbool true),
        (r"competitiveAdvantages",
          dget kvs compAdvKey (.jlist [.jstr advDefault1, .jstr advDefault2])),
        (r"marketPosition", dget kvs marketPosKey (.jstr defMPStr)),
        (r"successIndicators",
          dget kvs successIndKey
            (.jlist [.jstr siDefault1, .jstr siDefault2, .jstr siDefault3]))] := by rw [hk, hm]
    _ = validate_response_format (.jdict kvs) ts2 := rfl

/-! ## Claim C5

Case-normalisation facts: title-cased strings (as produced by
`str.title()` in the pattern extractor) are uniquely determined by their
lowercase image, so the exact-name dedup of the extractor also guarantees
case-normalised uniqueness. -/

theorem toNat_ofNat_valid {n : Nat} (h : n.isValidChar) : (Char.ofNat n).toNat = n := by
  rw [Char.ofNat, dif_pos h]
  rfl

theorem toNat_toLower (c : Char) :
    c.toLower.toNat = if 65 ≤ c.toNat ∧ c.toNat ≤ 90 then c.toNat + 32 else c.toNat := by
  unfold Char.toLower
  by_cases h : c.toNat ≥ 65 ∧ c.toNat ≤ 90
  · rw [if_pos h, if_pos ⟨h.1, h.2⟩]
    exact toNat_ofNat_valid (Or.inl (by omega))
  · rw [if_neg h, if_neg (by omega)]

theorem toNat_toUpper (c : Char) :
    c.toUpper.toNat = if 97 ≤ c.toNat ∧ c.toNat ≤ 122 then c.toNat - 32 else c.toNat := by
  unfold Char.toUpper
  by_cases h : c.toNat ≥ 97 ∧ c.toNat ≤ 122
  · rw [if_pos h, if_pos ⟨h.1, h.2⟩]
    exact toNat_ofNat_valid (Or.inl (by omega))
  · rw [if_neg h, if_neg (by omega)]

theorem char_eq_of_toNat_eq {c d : Char} (h : c.toNat = d.toNat) : c = d := by
  have := congrArg Char.ofNat h
  rwa [Char.ofNat_toNat, Char.ofNat_toNat] at this

theorem isAlpha_iff_toNat (c : Char) :
    c.isAlpha = true ↔ (65 ≤ c.toNat ∧ c.toNat ≤ 90) ∨ (97 ≤ c.toNat ∧ c.toNat ≤ 122) := by
  simp only [Char.isAlpha, Char.isUpper, Char.isLower, Char.toNat, UInt32.le_def,
    BitVec.le_def, Bool.or_eq_true, Bool.and_eq_true, decide_eq_true_eq]
  exact Iff.rfl

theorem isAlpha_eq_decide (c : Char) :
    c.isAlpha =
      decide ((65 ≤ c.toNat ∧ c.toNat ≤ 90) ∨ (97 ≤ c.toNat ∧ c.toNat ≤ 122)) := by
  rcases Bool.eq_false_or_eq_true c.isAlpha with h | h <;> rw [h] <;> symm
  · rw [decide_eq_true_eq]
    exact (isAlpha_iff_toNat c).mp h
  · rw [decide_eq_false_iff_not]
    intro hcon
    have := (isAlpha_iff_toNat c).mpr hcon
    rw [h] at this
    exact Bool.false_ne_true this

theorem toLower_toLower (c : Char) : c.toLower.toLower = c.toLower := by
  apply char_eq_of_toNat_eq
  have hl := toNat_toLower c
  by_cases h : 65 ≤ c.toNat ∧ c.toNat ≤ 90
  · rw [if_pos h] at hl
    rw [toNat_toLower c.toLower, hl, if_neg (by omega)]
  · rw [if_neg h] at hl
    rw [toNat_toLower c.toLower, hl, if_neg h]

theorem toUpper_toLower (c : Char) : c.toLower.toUpper = c.toUpper := by
  apply char_eq_of_toNat_eq
  have hl := toNat_toLower c
  rw [toNat_toUpper c.toLower, toNat_toUpper c, hl]
  by_cases h : 65 ≤ c.toNat ∧ c.toNat ≤ 90
  · rw [if_pos h, if_pos (by omega), if_neg (by omega)]
    omega
  · rw [if_neg h]

theorem toLower_toUpper (c : Char) : c.toUpper.toLower = c.toLower := by
  apply char_eq_of_toNat_eq
  have hu := toNat_toUpper c
  rw [toNat_toLower c.toUpper, toNat_toLower c, hu]
  by_cases h : 97 ≤ c.toNat ∧ c.toNat ≤ 122
  · rw [if_pos h, if_pos (by omega), if_neg (by omega)]
    omega
  · rw [if_neg h]

theorem isAlpha_toLower (c : Char) : c.toLower.isAlpha = c.isAlpha := by
  rw [isAlpha_eq_decide, isAlpha_eq_decide c, toNat_toLower]
  by_cases h : 65 ≤ c.toNat ∧ c.toNat ≤ 90
  · rw [if_pos h]
    rw [decide_eq_decide]
    omega
  · rw [if_neg h]

theorem toLower_of_not_alpha {c : Char} (h : c.isAlpha = false) : c.toLower = c := by
  apply char_eq_of_toNat_eq
  rw [toNat_toLower, if_neg]
  intro hcon
  have := (isAlpha_iff_toNat c).mpr (Or.inl hcon)
  rw [h] at this
  exact Bool.false_ne_true this

/-- `str.title()` only depends on the lowercase image of its input. -/
theorem pytitleGo_pylower (b : Bool) (s : Str) :
    pytitleGo b (pylower s) = pytitleGo b s := by
  induction s generalizing b with
  | nil => rfl
  | cons c cs ih =>
    show pytitleGo b (c.toLower :: pylower cs) = pytitleGo b (c :: cs)
    unfold pytitleGo
    dsimp only
    rw [isAlpha_toLower, toLower_toLower, toUpper_toLower, ih]
    by_cases ha : c.isAlpha
    · rw [if_pos ha, if_pos ha]
    · rw [if_neg ha, if_neg ha, toLower_of_not_alpha (Bool.eq_false_iff.mpr ha)]

/-- Lowercasing undoes title-casing. -/
theorem pylower_pytitleGo (b : Bool) (s : Str) :
    pylower (pytitleGo b s) = pylower s := by
  induction s generalizing b with
  | nil => rfl
  | cons c cs ih =>
    unfold pytitleGo
    dsimp only
    show (if c.isAlpha then (if b then c.toLower else c.toUpper) else c).toLower ::
        pylower (pytitleGo c.isAlpha cs) = c.toLower :: pylower cs
    rw [ih]
    by_cases ha : c.isAlpha
    · rw [if_pos ha]
      by_cases hb : b
      · rw [if_pos hb, toLower_toLower]
      · rw [if_neg hb, toLower_toUpper]
    · rw [if_neg ha]

/-- A string is in canonical title form when re-title-casing its lowercase
image reproduces it.  All metric names built by the pattern extractor are
canonical, which upgrades exact-name uniqueness to case-normalised
uniqueness. -/
def CanonStr (w : Str) : Prop := pytitleGo false (pylower w) = w

theorem canon_pytitle (s : Str) : CanonStr (pytitle s) := by
  unfold CanonStr pytitle
  rw [pylower_pytitleGo, pytitleGo_pylower]

theorem canon_total {w : Str} (h : CanonStr w) : CanonStr (totalSp ++ w) := by
  unfold CanonStr at *
  have h1 : pylower (totalSp ++ w) = 't' :: 'o' :: 't' :: 'a' :: 'l' :: ' ' :: pylower w := by
    show pylower (totalSp ++ w) = pylower totalSp ++ pylower w
    exact List.map_append ..
  rw [h1]
  show 'T' :: 'o' :: 't' :: 'a' :: 'l' :: ' ' :: pytitleGo false (pylower w) = totalSp ++ w
  rw [h]
  rfl

theorem canon_inj {w1 w2 : Str} (h1 : CanonStr w1) (h2 : CanonStr w2)
    (h : pylower w1 = pylower w2) : w1 = w2 := by
  rw [← h1, ← h2, h]

theorem dedupByNameGo_spec (ms : List SimpleMetric) :
    ∀ seen : List Str,
      (dedupByNameGo seen ms).Pairwise (fun a b => a.name ≠ b.name) ∧
        ∀ m ∈ dedupByNameGo seen ms, m.name ∉ seen ∧ m ∈ ms := by
  induction ms with
  | nil => exact fun seen => ⟨List.Pairwise.nil, fun m hm => absurd hm (List.not_mem_nil m)⟩
  | cons x ms ih =>
    intro seen
    unfold dedupByNameGo
    by_cases hx : x.name ∈ seen
    · rw [if_pos hx]
      refine ⟨(ih seen).1, fun m hm => ?_⟩
      obtain ⟨h1, h2⟩ := (ih seen).2 m hm
      exact ⟨h1, List.mem_cons_of_mem _ h2⟩
    · rw [if_neg hx]
      constructor
      · refine List.Pairwise.cons ?_ (ih (x.name :: seen)).1
        intro m hm
        have := ((ih (x.name :: seen)).2 m hm).1
        intro heq
        exact this (heq ▸ List.mem_cons_self ..)
      · intro m hm
        rcases List.mem_cons.mp hm with rfl | hm'
        · exact ⟨hx, List.mem_cons_self ..⟩
        · obtain ⟨h1, h2⟩ := (ih (x.name :: seen)).2 m hm'
          exact ⟨fun hc => h1 (List.mem_cons_of_mem _ hc), List.mem_cons_of_mem _ h2⟩

theorem currencyMetricsOf_canon (text : Str) :
    ∀ m ∈ currencyMetricsOf text, CanonStr m.name := by
  intro m hm
  unfold currencyMetricsOf at hm
  rcases List.mem_flatten.mp hm with ⟨l, hl, hml⟩
  rcases List.mem_map.mp hl with ⟨alts, _, rfl⟩
  rcases List.mem_map.mp hml with ⟨dv, _, rfl⟩
  exact canon_pytitle _

theorem percentageMetricsOf_canon (text : Str) :
    ∀ m ∈ percentageMetricsOf text, CanonStr m.name := by
  intro m hm
  unfold percentageMetricsOf at hm
  rcases List.mem_flatten.mp hm with ⟨l, hl, hml⟩
  rcases List.mem_map.mp hl with ⟨alts, _, rfl⟩
  rcases List.mem_map.mp hml with ⟨dv, _, rfl⟩
  exact canon_pytitle _

theorem countMetricsOf_canon (text : Str) :
    ∀ m ∈ countMetricsOf text, CanonStr m.name := by
  intro m hm
  unfold countMetricsOf at hm
  rcases List.mem_flatten.mp hm with ⟨l, hl, hml⟩
  rcases List.mem_map.mp hl with ⟨alts, _, rfl⟩
  rcases List.mem_map.mp hml with ⟨vd, _, rfl⟩
  exact canon_total (canon_pytitle _)

theorem simpleMetricsOf_canon (text : Str) :
    ∀ m ∈ simpleMetricsOf text, CanonStr m.name := by
  intro m hm
  unfold simpleMetricsOf at hm
  have hmem := ((dedupByNameGo_spec _ []).2 m (List.mem_of_mem_take hm)).2
  rcases List.mem_append.mp hmem with h | h
  · rcases List.mem_append.mp h with h' | h'
    · exact currencyMetricsOf_canon text m h'
    · exact percentageMetricsOf_canon text m h'
  · exact countMetricsOf_canon text m h

theorem dedupByNameGo_sublist (ms : List SimpleMetric) :
    ∀ seen, List.Sublist (dedupByNameGo seen ms) ms := by
  induction ms with
  | nil => intro _; exact List.Sublist.refl _
  | cons x ms ih =>
    intro seen
    unfold dedupByNameGo
    by_cases hx : x.name ∈ seen
    · rw [if_pos hx]
      exact (ih seen).cons x
    · rw [if_neg hx]
      exact (ih (x.name :: seen)).cons₂ x

/-- C5 (amended, simple-extraction path): the metrics list built by
`extract_data_from_text_simple` contains no two entries whose names are
equal after case normalisation (the dedup loop keeps the first occurrence of
each exact name, and all produced names are in canonical title form); and
the dedup loop only ever keeps a subsequence of its input (first occurrence
wins).  The chunked path `process_with_chunking` performs no metric dedup at
all (see the counterexample). -/
theorem C5_metrics_dedup :
    (∀ text : Str, (simpleMetricsOf text).Pairwise
        (fun a b => pylower a.name ≠ pylower b.name)) ∧
      ∀ ms : List SimpleMetric, List.Sublist (dedupByNameGo [] ms) ms := by
  constructor
  · intro text
    have hpw := (dedupByNameGo_spec
      (currencyMetricsOf text ++ percentageMetricsOf text ++ countMetricsOf text) []).1
    have hmemc : ∀ m ∈ dedupByNameGo []
        (currencyMetricsOf text ++ percentageMetricsOf text ++ countMetricsOf text),
        CanonStr m.name := by
      intro m hm
      have hmem := ((dedupByNameGo_spec _ []).2 m hm).2
      rcases List.mem_append.mp hmem with h | h
      · rcases List.mem_append.mp h with h2 | h2
        · exact currencyMetricsOf_canon text m h2
        · exact percentageMetricsOf_canon text m h2
      · exact countMetricsOf_canon text m h
    have hpw2 : (dedupByNameGo []
        (currencyMetricsOf text ++ percentageMetricsOf text ++ countMetricsOf text)).Pairwise
        (fun a b => pylower a.name ≠ pylower b.name) := by
      refine hpw.imp_of_mem ?_
      intro a b ha hb hne heq
      exact hne (canon_inj (hmemc a ha) (hmemc b hb) heq)
    unfold simpleMetricsOf
    exact List.Pairwise.sublist (List.take_sublist ..) hpw2
  · intro ms
    exact dedupByNameGo_sublist ms []

def dupResp : Str := "Revenue: 555\nrevenue: 666".data

/-- A generation capability returning two same-named (up to case) metric
lines, for the chunked-path counterexample. -/
def genDup : Str → Option Nat → Str := fun _ _ => dupResp

def helloText : Str := "Hello".data

def revCap : Str := "Revenue".data

def revLow : Str := "revenue".data

/-- C5 (counterexample): on the chunked path, a generated metrics response
with lines `Revenue: 555` and `revenue: 666` yields a result whose metrics
list keeps both entries — two metrics whose names are equal after case
normalisation but were never deduplicated, contradicting the claim for
`process_with_chunking`. -/
theorem C5_counterexample :
    metricNames (process_with_chunking genDup helloText tsA) = [revCap, revLow] ∧
      pylower revCap = pylower revLow ∧ revCap ≠ revLow :=
  ⟨rfl, rfl, by decide⟩
